import Mathlib

/-!
Verification development for the vectql repository: a provider-agnostic IR for
vector-database queries together with dialect renderers (Pinecone, Qdrant,
Weaviate, Milvus) that translate the IR into backend wire formats.

The Go source is shallowly embedded: Go structs become Lean structures, Go
pointers become `Option`, Go slices become `List`, Go `map` values become
association lists carrying an explicit iteration order (Go leaves map
iteration order unspecified; `encoding/json` serializes map keys in sorted
order, which the JSON model below reproduces), and Go `error` returns become
`Except String`.  Vector components (`float32` in Go) are modelled as `Int`:
no verified property depends on floating-point arithmetic, and serialization
of whole-valued components agrees with Go.
-/

namespace Vectql

/-- Modelled from the spec: `Param` (internal/types, file not in the source
drop; constructed as `types.Param{Name: name}` by the builder): a named
placeholder standing in for a caller-supplied runtime value; it never carries
a value. -/
structure Param where
  name : String
deriving DecidableEq, Repr

/-- Modelled from the spec: `Collection` (internal/types, file not in the
source drop; constructed as `types.Collection{Name: name}`): an opaque
collection name handle. -/
structure Collection where
  name : String
deriving DecidableEq, Repr

/-- `EmbeddingField` from internal/types. -/
structure EmbeddingField where
  name : String
  collection : String
deriving DecidableEq, Repr

/-- `MetadataField` from internal/types (expressions.go companion file). -/
structure MetadataField where
  name : String
  collection : String
deriving DecidableEq, Repr

/-- Go `type Operation string`. -/
abbrev Operation := String

def OpSearch : Operation := "SEARCH"
def OpUpsert : Operation := "UPSERT"
def OpDelete : Operation := "DELETE"
def OpFetch : Operation := "FETCH"
def OpUpdate : Operation := "UPDATE"

/-- Complexity limits from internal/types/ast.go. -/
def MaxFilterDepth : Nat := 5

def MaxBatchSize : Nat := 100

def MaxTopK : Int := 10000

def MaxMetadataFields : Nat := 50

def MaxIDsPerFetch : Nat := 1000

/-- Go `type FilterOperator string`. -/
abbrev FilterOperator := String

def EQ : FilterOperator := "="
def NE : FilterOperator := "!="
def GT : FilterOperator := ">"
def GE : FilterOperator := ">="
def LT : FilterOperator := "<"
def LE : FilterOperator := "<="
def IN : FilterOperator := "IN"
def NotIn : FilterOperator := "NOT_IN"
def ContainsOp : FilterOperator := "CONTAINS"
def StartsWithOp : FilterOperator := "STARTS_WITH"
def EndsWithOp : FilterOperator := "ENDS_WITH"
def MatchesOp : FilterOperator := "MATCHES"
def ExistsOp : FilterOperator := "EXISTS"
def NotExistsOp : FilterOperator := "NOT_EXISTS"
def ArrayContains : FilterOperator := "ARRAY_CONTAINS"
def ArrayContainsAny : FilterOperator := "ARRAY_CONTAINS_ANY"
def ArrayContainsAll : FilterOperator := "ARRAY_CONTAINS_ALL"

/-- Go `type LogicOperator string`. -/
abbrev LogicOperator := String

def AND : LogicOperator := "AND"
def OR : LogicOperator := "OR"
def NOT : LogicOperator := "NOT"

/-- Go `type DistanceMetric string`. -/
abbrev DistanceMetric := String

def Cosine : DistanceMetric := "COSINE"
def Euclidean : DistanceMetric := "EUCLIDEAN"
def DotProduct : DistanceMetric := "DOT_PRODUCT"
def Manhattan : DistanceMetric := "MANHATTAN"

/-- `GeoPoint` from internal/types. -/
structure GeoPoint where
  lat : Param
  lon : Param
deriving DecidableEq, Repr

/-- `FilterCondition` from internal/types. -/
structure FilterCondition where
  field : MetadataField
  operator : FilterOperator
  value : Param
deriving DecidableEq, Repr

/-- `RangeFilter` from internal/types. -/
structure RangeFilter where
  field : MetadataField
  min : Option Param
  max : Option Param
  minExclusive : Bool
  maxExclusive : Bool
deriving DecidableEq, Repr

/-- `GeoFilter` from internal/types. -/
structure GeoFilter where
  field : MetadataField
  center : GeoPoint
  radius : Param
deriving DecidableEq, Repr

/-- The Go interface `FilterItem` with its four implementations.  The
`group` constructor carries the `FilterGroup` fields (`Logic`,
`Conditions`) inline because `FilterGroup` recursively contains
`[]FilterItem`. -/
inductive FilterItem where
  | condition : FilterCondition → FilterItem
  | group : LogicOperator → List FilterItem → FilterItem
  | range : RangeFilter → FilterItem
  | geo : GeoFilter → FilterItem
deriving Repr

/-- `VectorValue` from internal/types: a literal vector or a parameter
reference (Go checks `Param != nil` first, else uses `Literal`). -/
structure VectorValue where
  literal : List Int
  param : Option Param
deriving DecidableEq, Repr

/-- `SparseVectorValue` from internal/types. -/
structure SparseVectorValue where
  indices : List Int
  values : List Int
  param : Option Param
deriving DecidableEq, Repr

/-- `VectorRecord` from internal/types.  `Metadata` is a Go map; it is
modelled as an association list whose order stands for the (unspecified)
Go map iteration order. -/
structure VectorRecord where
  id : Param
  vector : VectorValue
  metadata : List (MetadataField × Param)
  sparseVector : Option SparseVectorValue
deriving DecidableEq, Repr

/-- `PaginationValue` from internal/types. -/
structure PaginationValue where
  static : Option Int
  param : Option Param
deriving DecidableEq, Repr

/-- `VectorAST` from internal/types/ast.go.  Go pointers are `Option`,
slices are `List`, and the `Updates` map is an association list with an
explicit iteration order.  The Go field `Namespace` is called `nspace`
here because `namespace` is a Lean keyword. -/
structure VectorAST where
  operation : Operation
  target : Collection
  queryVector : Option VectorValue
  queryEmbedding : Option EmbeddingField
  topK : Option PaginationValue
  minScore : Option Param
  includeVectors : Bool
  includeMetadata : Bool
  filterClause : Option FilterItem
  metadataFields : List MetadataField
  vectors : List VectorRecord
  updates : List (MetadataField × Param)
  ids : List Param
  deleteAll : Bool
  nspace : Option Param

/-- `QueryResult` from internal/types/result.go. -/
structure QueryResult where
  json : String
  requiredParams : List String
deriving DecidableEq, Repr

/-! ## Validator (internal/types/ast.go) -/

mutual

/-- `validateFilterDepth` from ast.go: rejects when called at a depth above
`MaxFilterDepth`, and recurses into `FilterGroup.Conditions` at `depth+1`. -/
def validateFilterDepth (f : FilterItem) (depth : Nat) : Except String Unit :=
  if depth > MaxFilterDepth then
    .error ("filter nesting too deep: " ++ toString depth ++ " > " ++ toString MaxFilterDepth)
  else
    match f with
    | .group _ conds => validateFilterDepthList conds (depth + 1)
    | _ => .ok ()

/-- The `for _, c := range group.Conditions` loop of `validateFilterDepth`:
first error wins. -/
def validateFilterDepthList (l : List FilterItem) (depth : Nat) : Except String Unit :=
  match l with
  | [] => .ok ()
  | c :: cs =>
    match validateFilterDepth c depth with
    | .ok () => validateFilterDepthList cs depth
    | .error e => .error e

end

/-- `(*VectorAST).validateSearch`, checks after the TopK bound checks. -/
def validateSearchRest (ast : VectorAST) : Except String Unit :=
  if ast.metadataFields.length > MaxMetadataFields then
    .error ("metadata fields exceed maximum: " ++ toString ast.metadataFields.length ++
      " > " ++ toString MaxMetadataFields)
  else
    match ast.filterClause with
    | some f => validateFilterDepth f 0
    | none => .ok ()

/-- `(*VectorAST).validateSearch` from ast.go. -/
def validateSearch (ast : VectorAST) : Except String Unit :=
  match ast.queryVector with
  | none => .error "SEARCH requires a query vector"
  | some _ =>
    match ast.topK with
    | none => .error "SEARCH requires TopK"
    | some tk =>
      match tk.static with
      | some n =>
        if n > MaxTopK then
          .error ("TopK exceeds maximum: " ++ toString n ++ " > " ++ toString MaxTopK)
        else if n ≤ 0 then
          .error ("TopK must be positive: " ++ toString n)
        else
          validateSearchRest ast
      | none => validateSearchRest ast

/-- `(*VectorAST).validateUpsert` from ast.go. -/
def validateUpsert (ast : VectorAST) : Except String Unit :=
  if ast.vectors.length = 0 then
    .error "UPSERT requires at least one vector"
  else if ast.vectors.length > MaxBatchSize then
    .error ("batch size exceeds maximum: " ++ toString ast.vectors.length ++
      " > " ++ toString MaxBatchSize)
  else
    .ok ()

/-- `(*VectorAST).validateDelete` from ast.go. -/
def validateDelete (ast : VectorAST) : Except String Unit :=
  if ast.ids.length = 0 ∧ ast.filterClause.isNone then
    .error "DELETE requires either IDs or a filter"
  else if ast.filterClause.isSome ∧ ast.deleteAll = false then
    .error "DELETE by filter requires DeleteAll() flag for safety"
  else if ast.ids.length > MaxIDsPerFetch then
    .error ("too many IDs: " ++ toString ast.ids.length ++ " > " ++ toString MaxIDsPerFetch)
  else
    .ok ()

/-- `(*VectorAST).validateFetch` from ast.go. -/
def validateFetch (ast : VectorAST) : Except String Unit :=
  if ast.ids.length = 0 then
    .error "FETCH requires at least one ID"
  else if ast.ids.length > MaxIDsPerFetch then
    .error ("too many IDs: " ++ toString ast.ids.length ++ " > " ++ toString MaxIDsPerFetch)
  else
    .ok ()

/-- `(*VectorAST).validateUpdate` from ast.go. -/
def validateUpdate (ast : VectorAST) : Except String Unit :=
  if ast.ids.length = 0 then
    .error "UPDATE requires at least one ID"
  else if ast.updates.length = 0 then
    .error "UPDATE requires at least one field to update"
  else if ast.ids.length > MaxIDsPerFetch then
    .error ("too many IDs: " ++ toString ast.ids.length ++ " > " ++ toString MaxIDsPerFetch)
  else
    .ok ()

/-- `(*VectorAST).Validate` from ast.go. -/
def Validate (ast : VectorAST) : Except String Unit :=
  if ast.target.name = "" then
    .error "target collection is required"
  else if ast.operation = OpSearch then validateSearch ast
  else if ast.operation = OpUpsert then validateUpsert ast
  else if ast.operation = OpDelete then validateDelete ast
  else if ast.operation = OpFetch then validateFetch ast
  else if ast.operation = OpUpdate then validateUpdate ast
  else .error ("unsupported operation: " ++ ast.operation)

/-! ## JSON document model

Renderers build Go `map[string]interface{}` documents and serialize them with
`encoding/json`, which emits object keys in sorted (byte-lexicographic)
order.  A document value is a `JValue`; Go maps are association lists with
insert-with-overwrite semantics, and `jsonMarshal` sorts every object's
fields before serializing, exactly as `json.Marshal` does.  String escaping
is modelled for quotes and backslashes only; no name occurring in the
repository needs further escaping. -/

inductive JValue where
  | str : String → JValue
  | int : Int → JValue
  | bool : Bool → JValue
  | arr : List JValue → JValue
  | obj : List (String × JValue) → JValue
deriving Repr

/-- Go map assignment `m[k] = v`: overwrite if present, else append. -/
def mapInsert (m : List (String × JValue)) (k : String) (v : JValue) :
    List (String × JValue) :=
  match m with
  | [] => [(k, v)]
  | p :: ps => if p.1 = k then (k, v) :: ps else p :: mapInsert ps k v

/-- Lexicographic less-or-equal on character lists: the byte-wise key
order `encoding/json` uses when serializing Go maps (they coincide on
UTF-8). -/
def charListLe : List Char → List Char → Bool
  | [], _ => true
  | _ :: _, [] => false
  | c :: cs, d :: ds => if c = d then charListLe cs ds else decide (c < d)

/-- Lexicographic less-or-equal on strings. -/
def strLe (a b : String) : Bool := charListLe a.data b.data

/-- Insertion into a key-sorted field list. -/
def insertSorted (p : String × JValue) (l : List (String × JValue)) :
    List (String × JValue) :=
  match l with
  | [] => [p]
  | q :: qs => if strLe p.1 q.1 then p :: q :: qs else q :: insertSorted p qs

/-- Sort an object's fields by key, as `encoding/json` does for Go maps. -/
def sortFields (l : List (String × JValue)) : List (String × JValue) :=
  match l with
  | [] => []
  | p :: ps => insertSorted p (sortFields ps)

mutual

/-- Recursively sort every object's fields by key. -/
def sortJson : JValue → JValue
  | .str s => .str s
  | .int n => .int n
  | .bool b => .bool b
  | .arr xs => .arr (sortJsonList xs)
  | .obj fs => .obj (sortFields (sortJsonFields fs))

def sortJsonList : List JValue → List JValue
  | [] => []
  | x :: xs => sortJson x :: sortJsonList xs

def sortJsonFields : List (String × JValue) → List (String × JValue)
  | [] => []
  | (k, v) :: fs => (k, sortJson v) :: sortJsonFields fs

end

def escapeChar (c : Char) : String :=
  if c = '"' then "\\\"" else if c = '\\' then "\\\\" else String.singleton c

def quoteStr (s : String) : String :=
  "\"" ++ String.join (s.data.map escapeChar) ++ "\""

mutual

/-- Serialize a `JValue` the way `encoding/json` serializes the
corresponding Go value (fields are assumed already sorted). -/
def serialize : JValue → String
  | .str s => quoteStr s
  | .int n => toString n
  | .bool b => if b then "true" else "false"
  | .arr xs => "[" ++ serializeItems xs ++ "]"
  | .obj fs => "\x7b" ++ serializeFields fs ++ "\x7d"

def serializeItems : List JValue → String
  | [] => ""
  | [x] => serialize x
  | x :: y :: rest => serialize x ++ "," ++ serializeItems (y :: rest)

def serializeFields : List (String × JValue) → String
  | [] => ""
  | [(k, v)] => quoteStr k ++ ":" ++ serialize v
  | (k, v) :: f :: rest => quoteStr k ++ ":" ++ serialize v ++ "," ++ serializeFields (f :: rest)

end

/-- `json.Marshal` of a Go `map[string]interface{}`. -/
def jsonMarshal (query : List (String × JValue)) : String :=
  serialize (sortJson (.obj query))

/-- `toResult` (identical in all four renderer packages): serialize the
query map and pair it with the accumulated parameter list.  The `JValue`
type only contains JSON-encodable values, so the Go serialization-failure
branch is unreachable in the model. -/
def toResult (query : List (String × JValue)) (params : List String) :
    Except String QueryResult :=
  .ok ⟨jsonMarshal query, params⟩

/-! ## Shared loop shapes

The four renderer packages duplicate two small loops verbatim: turning an ID
slice into `:name` placeholder strings while appending each name to the
parameter accumulator, and inserting a metadata/updates map into a document
while appending each value's name.  They are defined once here and used by
each renderer. -/

/-- `for i, id := range ast.IDs { params += id.Name; ids[i] = ":"+id.Name }` -/
def renderIDs : List Param → List String → List String × List String
  | [], params => ([], params)
  | id :: rest, params =>
    let (strs, params) := renderIDs rest (params ++ [id.name])
    ((":" ++ id.name) :: strs, params)

/-- `for field, value := range m { params += value.Name; doc[field.Name] = ":"+value.Name }` -/
def insertKVs : List (MetadataField × Param) → List (String × JValue) → List String →
    List (String × JValue) × List String
  | [], doc, params => (doc, params)
  | (f, v) :: rest, doc, params =>
    insertKVs rest (mapInsert doc f.name (.str (":" ++ v.name))) (params ++ [v.name])

/-! ## Pinecone renderer (pkg/pinecone/pinecone.go) -/

namespace Pinecone

/-- `(*Renderer).mapOperator`: Go switch with default `"$eq"`. -/
def mapOperator (op : FilterOperator) : String :=
  if op = EQ then "$eq"
  else if op = NE then "$ne"
  else if op = GT then "$gt"
  else if op = GE then "$gte"
  else if op = LT then "$lt"
  else if op = LE then "$lte"
  else if op = IN then "$in"
  else if op = NotIn then "$nin"
  else "$eq"

/-- `(*Renderer).mapLogic`: Go switch with default `"$and"`. -/
def mapLogic (logic : LogicOperator) : String :=
  if logic = AND then "$and"
  else if logic = OR then "$or"
  else if logic = NOT then "$not"
  else "$and"

mutual

/-- `(*Renderer).renderFilter`.  Pinecone handles `FilterCondition`,
`FilterGroup` and `RangeFilter`; a `GeoFilter` reaches the defensive
default branch (`unsupported filter type: %T`). -/
def renderFilter : FilterItem → List String → Except String (JValue × List String)
  | .condition c, params =>
    .ok (.obj [(c.field.name, .obj [(mapOperator c.operator, .str (":" ++ c.value.name))])],
      params ++ [c.value.name])
  | .group logic conds, params =>
    match renderFilterList conds params with
    | .error e => .error e
    | .ok (rendered, params) => .ok (.obj [(mapLogic logic, .arr rendered)], params)
  | .range r, params =>
    let (fields, params) :=
      match r.min with
      | some minp =>
        ([((if r.minExclusive then "$gt" else "$gte"), JValue.str (":" ++ minp.name))],
          params ++ [minp.name])
      | none => ([], params)
    let (fields, params) :=
      match r.max with
      | some maxp =>
        (fields ++ [((if r.maxExclusive then "$lt" else "$lte"), JValue.str (":" ++ maxp.name))],
          params ++ [maxp.name])
      | none => (fields, params)
    .ok (.obj [(r.field.name, .obj fields)], params)
  | .geo _, _ => .error "unsupported filter type: types.GeoFilter"

/-- The `for _, c := range filter.Conditions` loop of `renderFilter`. -/
def renderFilterList : List FilterItem → List String →
    Except String (List JValue × List String)
  | [], params => .ok ([], params)
  | c :: cs, params =>
    match renderFilter c params with
    | .error e => .error e
    | .ok (v, params) =>
      match renderFilterList cs params with
      | .error e => .error e
      | .ok (vs, params) => .ok (v :: vs, params)

end

/-- Namespace emission plus `toResult`, the common tail of every Pinecone
per-operation emitter. -/
def emitTail (ast : VectorAST) (query : List (String × JValue)) (params : List String) :
    Except String QueryResult :=
  match ast.nspace with
  | some ns =>
    toResult (mapInsert query "namespace" (.str (":" ++ ns.name))) (params ++ [ns.name])
  | none => toResult query params

/-- `(*Renderer).renderSearch` after the filter step. -/
def searchTail (ast : VectorAST) (query : List (String × JValue)) (params : List String) :
    Except String QueryResult :=
  emitTail ast query params

/-- `(*Renderer).renderSearch`. -/
def renderSearch (ast : VectorAST) (params : List String) : Except String QueryResult :=
  let query : List (String × JValue) := []
  let (query, params) :=
    match ast.topK with
    | none => (query, params)
    | some tk =>
      match tk.static with
      | some n => (mapInsert query "topK" (.int n), params)
      | none =>
        match tk.param with
        | some p => (mapInsert query "topK" (.str (":" ++ p.name)), params ++ [p.name])
        | none => (query, params)
  let query := mapInsert query "includeValues" (.bool ast.includeVectors)
  let query := mapInsert query "includeMetadata" (.bool ast.includeMetadata)
  let (query, params) :=
    match ast.queryVector with
    | none => (query, params)
    | some qv =>
      match qv.param with
      | some p => (mapInsert query "vector" (.str (":" ++ p.name)), params ++ [p.name])
      | none => (mapInsert query "vector" (.arr (qv.literal.map JValue.int)), params)
  match ast.filterClause with
  | none => searchTail ast query params
  | some fc =>
    match renderFilter fc params with
    | .error e => .error e
    | .ok (fv, params) => searchTail ast (mapInsert query "filter" fv) params

/-- The per-record body of `(*Renderer).renderUpsert`. -/
def renderRecord (record : VectorRecord) (params : List String) :
    JValue × List String :=
  let vec : List (String × JValue) := []
  let params := params ++ [record.id.name]
  let vec := mapInsert vec "id" (.str (":" ++ record.id.name))
  let (vec, params) :=
    match record.vector.param with
    | some p => (mapInsert vec "values" (.str (":" ++ p.name)), params ++ [p.name])
    | none => (mapInsert vec "values" (.arr (record.vector.literal.map JValue.int)), params)
  let (vec, params) :=
    if record.metadata.length > 0 then
      let (md, params) := insertKVs record.metadata [] params
      (mapInsert vec "metadata" (.obj md), params)
    else (vec, params)
  let (vec, params) :=
    match record.sparseVector with
    | some sv =>
      match sv.param with
      | some p => (mapInsert vec "sparseValues" (.str (":" ++ p.name)), params ++ [p.name])
      | none =>
        (mapInsert vec "sparseValues"
          (.obj [("indices", .arr (sv.indices.map JValue.int)),
                 ("values", .arr (sv.values.map JValue.int))]), params)
    | none => (vec, params)
  (.obj vec, params)

/-- The `for i, record := range ast.Vectors` loop of `renderUpsert`. -/
def renderRecords : List VectorRecord → List String → List JValue × List String
  | [], params => ([], params)
  | record :: rest, params =>
    let (v, params) := renderRecord record params
    let (vs, params) := renderRecords rest params
    (v :: vs, params)

/-- `(*Renderer).renderUpsert`. -/
def renderUpsert (ast : VectorAST) (params : List String) : Except String QueryResult :=
  let (vecs, params) := renderRecords ast.vectors params
  emitTail ast [("vectors", .arr vecs)] params

/-- `(*Renderer).renderDelete`.  Note: the filter branch writes the key
`deleteAll` with the constant `false`. -/
def renderDelete (ast : VectorAST) (params : List String) : Except String QueryResult :=
  if ast.ids.length > 0 then
    let (idStrs, params) := renderIDs ast.ids params
    emitTail ast (mapInsert [] "ids" (.arr (idStrs.map JValue.str))) params
  else
    match ast.filterClause with
    | some fc =>
      if ast.deleteAll then
        match renderFilter fc params with
        | .error e => .error e
        | .ok (fv, params) =>
          emitTail ast (mapInsert (mapInsert [] "filter" fv) "deleteAll" (.bool false)) params
      else emitTail ast [] params
    | none => emitTail ast [] params

/-- `(*Renderer).renderFetch`. -/
def renderFetch (ast : VectorAST) (params : List String) : Except String QueryResult :=
  let (idStrs, params) := renderIDs ast.ids params
  emitTail ast (mapInsert [] "ids" (.arr (idStrs.map JValue.str))) params

/-- `(*Renderer).renderUpdate`: Pinecone updates per ID and uses only the
first entry of `ast.IDs`. -/
def renderUpdate (ast : VectorAST) (params : List String) : Except String QueryResult :=
  match ast.ids with
  | [] => .error "UPDATE requires at least one ID"
  | id0 :: _ =>
    let params := params ++ [id0.name]
    let query := mapInsert [] "id" (.str (":" ++ id0.name))
    let (query, params) :=
      if ast.updates.length > 0 then
        let (md, params) := insertKVs ast.updates [] params
        (mapInsert query "setMetadata" (.obj md), params)
      else (query, params)
    emitTail ast query params

/-- `(*Renderer).Render`. -/
def Render (ast : VectorAST) : Except String QueryResult :=
  match Validate ast with
  | .error e => .error ("invalid AST: " ++ e)
  | .ok () =>
    if ast.operation = OpSearch then renderSearch ast []
    else if ast.operation = OpUpsert then renderUpsert ast []
    else if ast.operation = OpDelete then renderDelete ast []
    else if ast.operation = OpFetch then renderFetch ast []
    else if ast.operation = OpUpdate then renderUpdate ast []
    else .error ("unsupported operation: " ++ ast.operation)

/-- `(*Renderer).SupportsFilter`. -/
def SupportsFilter (op : FilterOperator) : Bool :=
  op = EQ ∨ op = NE ∨ op = GT ∨ op = GE ∨ op = LT ∨ op = LE ∨ op = IN ∨ op = NotIn

end Pinecone

/-! ## Qdrant renderer (pkg/qdrant, unnamed part_001) -/

namespace Qdrant

def condMust : String := "must"

def condMustNot : String := "must_not"

def condShould : String := "should"

/-- The Qdrant `Renderer` struct: carries a default named-vector name. -/
structure Renderer where
  DefaultVectorName : String

/-- `New()`. -/
def new : Renderer := ⟨""⟩

/-- `(*Renderer).mapConditionType`. -/
def mapConditionType (op : FilterOperator) : String :=
  if op = NE then condMustNot else condMust

/-- `(*Renderer).mapLogic`. -/
def mapLogic (logic : LogicOperator) : String :=
  if logic = AND then condMust
  else if logic = OR then condShould
  else if logic = NOT then condMustNot
  else condMust

mutual

/-- `(*Renderer).renderFilter`.  Qdrant handles all four variants, so the
defensive default branch is unreachable. -/
def renderFilter : FilterItem → List String → Except String (JValue × List String)
  | .condition c, params =>
    .ok (.obj [(mapConditionType c.operator,
        .arr [.obj [("key", .str c.field.name),
                    ("match", .obj [("value", .str (":" ++ c.value.name))])]])],
      params ++ [c.value.name])
  | .group logic conds, params =>
    match renderFilterList conds params with
    | .error e => .error e
    | .ok (rendered, params) => .ok (.obj [(mapLogic logic, .arr rendered)], params)
  | .range r, params =>
    let (rangeValues, params) :=
      match r.min with
      | some minp =>
        ([((if r.minExclusive then "gt" else "gte"), JValue.str (":" ++ minp.name))],
          params ++ [minp.name])
      | none => ([], params)
    let (rangeValues, params) :=
      match r.max with
      | some maxp =>
        (rangeValues ++ [((if r.maxExclusive then "lt" else "lte"), JValue.str (":" ++ maxp.name))],
          params ++ [maxp.name])
      | none => (rangeValues, params)
    .ok (.obj [(condMust, .arr [.obj [("key", .str r.field.name), ("range", .obj rangeValues)]])],
      params)
  | .geo g, params =>
    let params := params ++ [g.center.lat.name]
    let params := params ++ [g.center.lon.name]
    let params := params ++ [g.radius.name]
    .ok (.obj [(condMust,
        .arr [.obj [("key", .str g.field.name),
                    ("geo_radius",
                      .obj [("center", .obj [("lat", .str (":" ++ g.center.lat.name)),
                                             ("lon", .str (":" ++ g.center.lon.name))]),
                            ("radius", .str (":" ++ g.radius.name))])]])],
      params)

/-- The `for _, c := range filter.Conditions` loop of `renderFilter`. -/
def renderFilterList : List FilterItem → List String →
    Except String (List JValue × List String)
  | [], params => .ok ([], params)
  | c :: cs, params =>
    match renderFilter c params with
    | .error e => .error e
    | .ok (v, params) =>
      match renderFilterList cs params with
      | .error e => .error e
      | .ok (vs, params) => .ok (v :: vs, params)

end

/-- `(*Renderer).renderSearch`. -/
def renderSearch (r : Renderer) (ast : VectorAST) (params : List String) :
    Except String QueryResult :=
  let vectorQuery : List (String × JValue) := []
  let (vectorQuery, params) :=
    match ast.queryVector with
    | none => (vectorQuery, params)
    | some qv =>
      match qv.param with
      | some p => (mapInsert vectorQuery "vector" (.str (":" ++ p.name)), params ++ [p.name])
      | none => (mapInsert vectorQuery "vector" (.arr (qv.literal.map JValue.int)), params)
  let vectorQuery :=
    match ast.queryEmbedding with
    | some emb =>
      if emb.name ≠ "" then mapInsert vectorQuery "name" (.str emb.name)
      else if r.DefaultVectorName ≠ "" then
        mapInsert vectorQuery "name" (.str r.DefaultVectorName)
      else vectorQuery
    | none =>
      if r.DefaultVectorName ≠ "" then mapInsert vectorQuery "name" (.str r.DefaultVectorName)
      else vectorQuery
  let query := mapInsert [] "query" (.obj vectorQuery)
  let (query, params) :=
    match ast.topK with
    | none => (query, params)
    | some tk =>
      match tk.static with
      | some n => (mapInsert query "limit" (.int n), params)
      | none =>
        match tk.param with
        | some p => (mapInsert query "limit" (.str (":" ++ p.name)), params ++ [p.name])
        | none => (query, params)
  let (query, params) :=
    match ast.minScore with
    | some ms => (mapInsert query "score_threshold" (.str (":" ++ ms.name)), params ++ [ms.name])
    | none => (query, params)
  let query := mapInsert query "with_payload" (.bool ast.includeMetadata)
  let query := mapInsert query "with_vector" (.bool ast.includeVectors)
  match ast.filterClause with
  | none => toResult query params
  | some fc =>
    match renderFilter fc params with
    | .error e => .error e
    | .ok (fv, params) => toResult (mapInsert query "filter" fv) params

/-- The per-record body of `(*Renderer).renderUpsert` (no sparse-vector
handling in Qdrant). -/
def renderPoint (record : VectorRecord) (params : List String) :
    JValue × List String :=
  let point : List (String × JValue) := []
  let params := params ++ [record.id.name]
  let point := mapInsert point "id" (.str (":" ++ record.id.name))
  let (point, params) :=
    match record.vector.param with
    | some p => (mapInsert point "vector" (.str (":" ++ p.name)), params ++ [p.name])
    | none => (mapInsert point "vector" (.arr (record.vector.literal.map JValue.int)), params)
  let (point, params) :=
    if record.metadata.length > 0 then
      let (payload, params) := insertKVs record.metadata [] params
      (mapInsert point "payload" (.obj payload), params)
    else (point, params)
  (.obj point, params)

/-- The `for i, record := range ast.Vectors` loop of `renderUpsert`. -/
def renderPoints : List VectorRecord → List String → List JValue × List String
  | [], params => ([], params)
  | record :: rest, params =>
    let (v, params) := renderPoint record params
    let (vs, params) := renderPoints rest params
    (v :: vs, params)

/-- `(*Renderer).renderUpsert`. -/
def renderUpsert (ast : VectorAST) (params : List String) : Except String QueryResult :=
  let (points, params) := renderPoints ast.vectors params
  toResult [("points", .arr points)] params

/-- `(*Renderer).renderDelete`. -/
def renderDelete (ast : VectorAST) (params : List String) : Except String QueryResult :=
  if ast.ids.length > 0 then
    let (idStrs, params) := renderIDs ast.ids params
    toResult (mapInsert [] "points" (.arr (idStrs.map JValue.str))) params
  else
    match ast.filterClause with
    | some fc =>
      if ast.deleteAll then
        match renderFilter fc params with
        | .error e => .error e
        | .ok (fv, params) => toResult (mapInsert [] "filter" fv) params
      else toResult [] params
    | none => toResult [] params

/-- `(*Renderer).renderFetch`. -/
def renderFetch (ast : VectorAST) (params : List String) : Except String QueryResult :=
  let (idStrs, params) := renderIDs ast.ids params
  let query := mapInsert [] "ids" (.arr (idStrs.map JValue.str))
  let query := mapInsert query "with_payload" (.bool ast.includeMetadata)
  let query := mapInsert query "with_vector" (.bool ast.includeVectors)
  toResult query params

/-- `(*Renderer).renderUpdate`. -/
def renderUpdate (ast : VectorAST) (params : List String) : Except String QueryResult :=
  let (idStrs, params) := renderIDs ast.ids params
  let (payload, params) := insertKVs ast.updates [] params
  toResult [("points", .arr (idStrs.map JValue.str)), ("payload", .obj payload)] params

/-- `(*Renderer).Render`. -/
def Render (r : Renderer) (ast : VectorAST) : Except String QueryResult :=
  match Validate ast with
  | .error e => .error ("invalid AST: " ++ e)
  | .ok () =>
    if ast.operation = OpSearch then renderSearch r ast []
    else if ast.operation = OpUpsert then renderUpsert ast []
    else if ast.operation = OpDelete then renderDelete ast []
    else if ast.operation = OpFetch then renderFetch ast []
    else if ast.operation = OpUpdate then renderUpdate ast []
    else .error ("unsupported operation: " ++ ast.operation)

end Qdrant

/-! ## Weaviate renderer (pkg/weaviate) -/

namespace Weaviate

/-- `(*Renderer).formatClassName`: Weaviate class names start uppercase. -/
def formatClassName (name : String) : String :=
  match name.data with
  | [] => name
  | c :: cs => String.mk (c.toUpper :: cs)

/-- `(*Renderer).mapOperator`: Go switch with default `"Equal"`. -/
def mapOperator (op : FilterOperator) : String :=
  if op = EQ then "Equal"
  else if op = NE then "NotEqual"
  else if op = GT then "GreaterThan"
  else if op = GE then "GreaterThanEqual"
  else if op = LT then "LessThan"
  else if op = LE then "LessThanEqual"
  else if op = ContainsOp then "ContainsAny"
  else if op = ExistsOp then "IsNull"
  else "Equal"

/-- `(*Renderer).mapLogic`. -/
def mapLogic (logic : LogicOperator) : String :=
  if logic = AND then "And"
  else if logic = OR then "Or"
  else if logic = NOT then "Not"
  else "And"

mutual

/-- `(*Renderer).renderFilter`.  Weaviate handles all four variants. -/
def renderFilter : FilterItem → List String → Except String (JValue × List String)
  | .condition c, params =>
    .ok (.obj [("path", .arr [.str c.field.name]),
               ("operator", .str (mapOperator c.operator)),
               ("valueString", .str (":" ++ c.value.name))],
      params ++ [c.value.name])
  | .group logic conds, params =>
    match renderFilterList conds params with
    | .error e => .error e
    | .ok (operands, params) =>
      .ok (.obj [("operator", .str (mapLogic logic)), ("operands", .arr operands)], params)
  | .range r, params =>
    let (operands, params) :=
      match r.min with
      | some minp =>
        ([JValue.obj [("path", .arr [.str r.field.name]),
                      ("operator", .str (if r.minExclusive then "GreaterThan" else "GreaterThanEqual")),
                      ("valueNumber", .str (":" ++ minp.name))]],
          params ++ [minp.name])
      | none => ([], params)
    let (operands, params) :=
      match r.max with
      | some maxp =>
        (operands ++ [JValue.obj [("path", .arr [.str r.field.name]),
                      ("operator", .str (if r.maxExclusive then "LessThan" else "LessThanEqual")),
                      ("valueNumber", .str (":" ++ maxp.name))]],
          params ++ [maxp.name])
      | none => (operands, params)
    match operands with
    | [single] => .ok (single, params)
    | _ => .ok (.obj [("operator", .str "And"), ("operands", .arr operands)], params)
  | .geo g, params =>
    let params := params ++ [g.center.lat.name]
    let params := params ++ [g.center.lon.name]
    let params := params ++ [g.radius.name]
    .ok (.obj [("path", .arr [.str g.field.name]),
               ("operator", .str "WithinGeoRange"),
               ("valueGeoRange",
                 .obj [("geoCoordinates",
                         .obj [("latitude", .str (":" ++ g.center.lat.name)),
                               ("longitude", .str (":" ++ g.center.lon.name))]),
                       ("distance", .obj [("max", .str (":" ++ g.radius.name))])])],
      params)

/-- The `for _, c := range filter.Conditions` loop of `renderFilter`. -/
def renderFilterList : List FilterItem → List String →
    Except String (List JValue × List String)
  | [], params => .ok ([], params)
  | c :: cs, params =>
    match renderFilter c params with
    | .error e => .error e
    | .ok (v, params) =>
      match renderFilterList cs params with
      | .error e => .error e
      | .ok (vs, params) => .ok (v :: vs, params)

end

/-- Tenant emission plus `toResult`: the common tail of the Weaviate
emitters that handle `ast.Namespace`. -/
def tenantTail (ast : VectorAST) (query : List (String × JValue)) (params : List String) :
    Except String QueryResult :=
  match ast.nspace with
  | some ns => toResult (mapInsert query "tenant" (.str (":" ++ ns.name))) (params ++ [ns.name])
  | none => toResult query params

/-- The tail of `(*Renderer).renderSearch` after the filter step: tenant,
then the `additional` fields. -/
def searchTail (ast : VectorAST) (query : List (String × JValue)) (params : List String) :
    Except String QueryResult :=
  let (query, params) :=
    match ast.nspace with
    | some ns => (mapInsert query "tenant" (.str (":" ++ ns.name)), params ++ [ns.name])
    | none => (query, params)
  let query :=
    if ast.includeVectors then
      mapInsert query "additional" (.arr [.str "vector", .str "distance", .str "certainty"])
    else
      mapInsert query "additional" (.arr [.str "distance", .str "certainty"])
  toResult query params

/-- `(*Renderer).renderSearch`. -/
def renderSearch (ast : VectorAST) (params : List String) : Except String QueryResult :=
  let query := mapInsert [] "class" (.str (formatClassName ast.target.name))
  let nearVector : List (String × JValue) := []
  let (nearVector, params) :=
    match ast.queryVector with
    | none => (nearVector, params)
    | some qv =>
      match qv.param with
      | some p => (mapInsert nearVector "vector" (.str (":" ++ p.name)), params ++ [p.name])
      | none => (mapInsert nearVector "vector" (.arr (qv.literal.map JValue.int)), params)
  let (nearVector, params) :=
    match ast.minScore with
    | some ms => (mapInsert nearVector "certainty" (.str (":" ++ ms.name)), params ++ [ms.name])
    | none => (nearVector, params)
  let nearVector :=
    match ast.queryEmbedding with
    | some emb =>
      if emb.name ≠ "" then mapInsert nearVector "targetVectors" (.arr [.str emb.name])
      else nearVector
    | none => nearVector
  let query := mapInsert query "nearVector" (.obj nearVector)
  let (query, params) :=
    match ast.topK with
    | none => (query, params)
    | some tk =>
      match tk.static with
      | some n => (mapInsert query "limit" (.int n), params)
      | none =>
        match tk.param with
        | some p => (mapInsert query "limit" (.str (":" ++ p.name)), params ++ [p.name])
        | none => (query, params)
  let query :=
    if ast.includeMetadata ∧ ast.metadataFields.length > 0 then
      mapInsert query "properties" (.arr (ast.metadataFields.map (fun f => .str f.name)))
    else query
  match ast.filterClause with
  | none => searchTail ast query params
  | some fc =>
    match renderFilter fc params with
    | .error e => .error e
    | .ok (fv, params) => searchTail ast (mapInsert query "where" fv) params

/-- The per-record body of `(*Renderer).renderUpsert` (no sparse-vector
handling in Weaviate). -/
def renderObject (className : String) (record : VectorRecord) (params : List String) :
    JValue × List String :=
  let obj := mapInsert [] "class" (.str className)
  let params := params ++ [record.id.name]
  let obj := mapInsert obj "id" (.str (":" ++ record.id.name))
  let (obj, params) :=
    match record.vector.param with
    | some p => (mapInsert obj "vector" (.str (":" ++ p.name)), params ++ [p.name])
    | none => (mapInsert obj "vector" (.arr (record.vector.literal.map JValue.int)), params)
  let (obj, params) :=
    if record.metadata.length > 0 then
      let (properties, params) := insertKVs record.metadata [] params
      (mapInsert obj "properties" (.obj properties), params)
    else (obj, params)
  (.obj obj, params)

/-- The `for i, record := range ast.Vectors` loop of `renderUpsert`. -/
def renderObjects (className : String) : List VectorRecord → List String →
    List JValue × List String
  | [], params => ([], params)
  | record :: rest, params =>
    let (v, params) := renderObject className record params
    let (vs, params) := renderObjects className rest params
    (v :: vs, params)

/-- `(*Renderer).renderUpsert`. -/
def renderUpsert (ast : VectorAST) (params : List String) : Except String QueryResult :=
  let className := formatClassName ast.target.name
  let (objects, params) := renderObjects className ast.vectors params
  tenantTail ast [("objects", .arr objects)] params

/-- `(*Renderer).renderDelete`. -/
def renderDelete (ast : VectorAST) (params : List String) : Except String QueryResult :=
  let query := mapInsert [] "class" (.str (formatClassName ast.target.name))
  if ast.ids.length > 0 then
    let (idStrs, params) := renderIDs ast.ids params
    tenantTail ast (mapInsert query "ids" (.arr (idStrs.map JValue.str))) params
  else
    match ast.filterClause with
    | some fc =>
      if ast.deleteAll then
        match renderFilter fc params with
        | .error e => .error e
        | .ok (fv, params) => tenantTail ast (mapInsert query "where" fv) params
      else tenantTail ast query params
    | none => tenantTail ast query params

/-- `(*Renderer).renderFetch`. -/
def renderFetch (ast : VectorAST) (params : List String) : Except String QueryResult :=
  let className := formatClassName ast.target.name
  let (idStrs, params) := renderIDs ast.ids params
  let query := [("class", JValue.str className), ("ids", .arr (idStrs.map JValue.str))]
  let query :=
    if ast.includeMetadata ∧ ast.metadataFields.length > 0 then
      mapInsert query "properties" (.arr (ast.metadataFields.map (fun f => .str f.name)))
    else query
  let additional : List JValue := if ast.includeVectors then [.str "vector"] else []
  let query :=
    if additional.length > 0 then mapInsert query "additional" (.arr additional) else query
  tenantTail ast query params

/-- `(*Renderer).renderUpdate`: Weaviate updates one object at a time and
uses only the first entry of `ast.IDs`. -/
def renderUpdate (ast : VectorAST) (params : List String) : Except String QueryResult :=
  let className := formatClassName ast.target.name
  match ast.ids with
  | [] => .error "UPDATE requires at least one ID"
  | id0 :: _ =>
    let params := params ++ [id0.name]
    let (properties, params) := insertKVs ast.updates [] params
    let query := [("class", JValue.str className),
                  ("id", .str (":" ++ id0.name)),
                  ("properties", .obj properties)]
    tenantTail ast query params

/-- `(*Renderer).Render`. -/
def Render (ast : VectorAST) : Except String QueryResult :=
  match Validate ast with
  | .error e => .error ("invalid AST: " ++ e)
  | .ok () =>
    if ast.operation = OpSearch then renderSearch ast []
    else if ast.operation = OpUpsert then renderUpsert ast []
    else if ast.operation = OpDelete then renderDelete ast []
    else if ast.operation = OpFetch then renderFetch ast []
    else if ast.operation = OpUpdate then renderUpdate ast []
    else .error ("unsupported operation: " ++ ast.operation)

end Weaviate

/-! ## Milvus renderer (unnamed part_002) -/

namespace Milvus

/-- The Milvus `Renderer` struct: carries a default vector field name. -/
structure Renderer where
  DefaultVectorField : String

/-- `New()`. -/
def new : Renderer := ⟨"embedding"⟩

/-- `(*Renderer).mapOperator`: Go switch with default `"=="`. -/
def mapOperator (op : FilterOperator) : String :=
  if op = EQ then "=="
  else if op = NE then "!="
  else if op = GT then ">"
  else if op = GE then ">="
  else if op = LT then "<"
  else if op = LE then "<="
  else if op = IN then "in"
  else if op = NotIn then "not in"
  else if op = ContainsOp then "like"
  else "=="

mutual

/-- `(*Renderer).renderFilter`: produces a Milvus boolean expression
string.  A NOT group renders only its first child (or the empty string when
childless); a `GeoFilter` reaches the defensive default branch. -/
def renderFilter : FilterItem → List String → Except String (String × List String)
  | .condition c, params =>
    .ok (c.field.name ++ " " ++ mapOperator c.operator ++ " :" ++ c.value.name,
      params ++ [c.value.name])
  | .group logic conds, params =>
    if logic = NOT then
      match conds with
      | [] => .ok ("", params)
      | c :: _ =>
        match renderFilter c params with
        | .error e => .error e
        | .ok (inner, params) => .ok ("not (" ++ inner ++ ")", params)
    else
      match renderFilterList conds params with
      | .error e => .error e
      | .ok (parts, params) =>
        let op := if logic = OR then " or " else " and "
        .ok ("(" ++ String.intercalate op parts ++ ")", params)
  | .range r, params =>
    let (parts, params) :=
      match r.min with
      | some minp =>
        ([r.field.name ++ " " ++ (if r.minExclusive then ">" else ">=") ++ " :" ++ minp.name],
          params ++ [minp.name])
      | none => ([], params)
    let (parts, params) :=
      match r.max with
      | some maxp =>
        (parts ++ [r.field.name ++ " " ++ (if r.maxExclusive then "<" else "<=") ++ " :" ++ maxp.name],
          params ++ [maxp.name])
      | none => (parts, params)
    .ok ("(" ++ String.intercalate " and " parts ++ ")", params)
  | .geo _, _ => .error "unsupported filter type: types.GeoFilter"

/-- The `for _, c := range filter.Conditions` loop of `renderFilter`. -/
def renderFilterList : List FilterItem → List String →
    Except String (List String × List String)
  | [], params => .ok ([], params)
  | c :: cs, params =>
    match renderFilter c params with
    | .error e => .error e
    | .ok (v, params) =>
      match renderFilterList cs params with
      | .error e => .error e
      | .ok (vs, params) => .ok (v :: vs, params)

end

/-- Partition emission (the `partition_name` key) plus `toResult`. -/
def partitionTail (ast : VectorAST) (query : List (String × JValue)) (params : List String) :
    Except String QueryResult :=
  match ast.nspace with
  | some ns =>
    toResult (mapInsert query "partition_name" (.str (":" ++ ns.name))) (params ++ [ns.name])
  | none => toResult query params

/-- Partition emission for search/fetch (the `partition_names` list key). -/
def partitionsTail (ast : VectorAST) (query : List (String × JValue)) (params : List String) :
    Except String QueryResult :=
  match ast.nspace with
  | some ns =>
    toResult (mapInsert query "partition_names" (.arr [.str (":" ++ ns.name)])) (params ++ [ns.name])
  | none => toResult query params

/-- `(*Renderer).renderSearch`. -/
def renderSearch (r : Renderer) (ast : VectorAST) (params : List String) :
    Except String QueryResult :=
  let query := mapInsert [] "collection_name" (.str ast.target.name)
  let vectorField :=
    match ast.queryEmbedding with
    | some emb => if emb.name ≠ "" then emb.name else r.DefaultVectorField
    | none => r.DefaultVectorField
  let query := mapInsert query "anns_field" (.str vectorField)
  let (query, params) :=
    match ast.queryVector with
    | none => (query, params)
    | some qv =>
      match qv.param with
      | some p => (mapInsert query "data" (.str (":" ++ p.name)), params ++ [p.name])
      | none => (mapInsert query "data" (.arr [.arr (qv.literal.map JValue.int)]), params)
  let (query, params) :=
    match ast.topK with
    | none => (query, params)
    | some tk =>
      match tk.static with
      | some n => (mapInsert query "limit" (.int n), params)
      | none =>
        match tk.param with
        | some p => (mapInsert query "limit" (.str (":" ++ p.name)), params ++ [p.name])
        | none => (query, params)
  let query :=
    if ast.includeMetadata ∧ ast.metadataFields.length > 0 then
      mapInsert query "output_fields" (.arr (ast.metadataFields.map (fun f => .str f.name)))
    else query
  match ast.filterClause with
  | none => partitionsTail ast query params
  | some fc =>
    match renderFilter fc params with
    | .error e => .error e
    | .ok (expr, params) => partitionsTail ast (mapInsert query "filter" (.str expr)) params

/-- The per-record body of `(*Renderer).renderUpsert`: id, vector under the
default field name, then the metadata entries directly in the row. -/
def renderRow (r : Renderer) (record : VectorRecord) (params : List String) :
    JValue × List String :=
  let row : List (String × JValue) := []
  let params := params ++ [record.id.name]
  let row := mapInsert row "id" (.str (":" ++ record.id.name))
  let vectorField := r.DefaultVectorField
  let (row, params) :=
    match record.vector.param with
    | some p => (mapInsert row vectorField (.str (":" ++ p.name)), params ++ [p.name])
    | none => (mapInsert row vectorField (.arr (record.vector.literal.map JValue.int)), params)
  let (row, params) := insertKVs record.metadata row params
  (.obj row, params)

/-- The `for i, record := range ast.Vectors` loop of `renderUpsert`. -/
def renderRows (r : Renderer) : List VectorRecord → List String → List JValue × List String
  | [], params => ([], params)
  | record :: rest, params =>
    let (v, params) := renderRow r record params
    let (vs, params) := renderRows r rest params
    (v :: vs, params)

/-- `(*Renderer).renderUpsert`. -/
def renderUpsert (r : Renderer) (ast : VectorAST) (params : List String) :
    Except String QueryResult :=
  let query := mapInsert [] "collection_name" (.str ast.target.name)
  let (data, params) := renderRows r ast.vectors params
  partitionTail ast (mapInsert query "data" (.arr data)) params

/-- `(*Renderer).renderDelete`. -/
def renderDelete (ast : VectorAST) (params : List String) : Except String QueryResult :=
  let query := mapInsert [] "collection_name" (.str ast.target.name)
  if ast.ids.length > 0 then
    let (idStrs, params) := renderIDs ast.ids params
    partitionTail ast
      (mapInsert query "filter" (.str ("id in [" ++ String.intercalate ", " idStrs ++ "]")))
      params
  else
    match ast.filterClause with
    | some fc =>
      if ast.deleteAll then
        match renderFilter fc params with
        | .error e => .error e
        | .ok (expr, params) => partitionTail ast (mapInsert query "filter" (.str expr)) params
      else partitionTail ast query params
    | none => partitionTail ast query params

/-- `(*Renderer).renderFetch`. -/
def renderFetch (ast : VectorAST) (params : List String) : Except String QueryResult :=
  let query := mapInsert [] "collection_name" (.str ast.target.name)
  let (idStrs, params) := renderIDs ast.ids params
  let query :=
    mapInsert query "filter" (.str ("id in [" ++ String.intercalate ", " idStrs ++ "]"))
  let query :=
    if ast.includeMetadata ∧ ast.metadataFields.length > 0 then
      mapInsert query "output_fields" (.arr (ast.metadataFields.map (fun f => .str f.name)))
    else if ast.includeMetadata then
      mapInsert query "output_fields" (.arr [.str "*"])
    else query
  partitionsTail ast query params

/-- The per-ID body of `(*Renderer).renderUpdate`: each row repeats the
full updates map after its ID. -/
def renderUpdateRows (updates : List (MetadataField × Param)) :
    List Param → List String → List JValue × List String
  | [], params => ([], params)
  | id :: rest, params =>
    let params := params ++ [id.name]
    let row := mapInsert [] "id" (.str (":" ++ id.name))
    let (row, params) := insertKVs updates row params
    let (vs, params) := renderUpdateRows updates rest params
    (.obj row :: vs, params)

/-- `(*Renderer).renderUpdate`: Milvus updates via upsert rows. -/
def renderUpdate (ast : VectorAST) (params : List String) : Except String QueryResult :=
  let query := mapInsert [] "collection_name" (.str ast.target.name)
  let (data, params) := renderUpdateRows ast.updates ast.ids params
  toResult (mapInsert query "data" (.arr data)) params

/-- `(*Renderer).Render`. -/
def Render (r : Renderer) (ast : VectorAST) : Except String QueryResult :=
  match Validate ast with
  | .error e => .error ("invalid AST: " ++ e)
  | .ok () =>
    if ast.operation = OpSearch then renderSearch r ast []
    else if ast.operation = OpUpsert then renderUpsert r ast []
    else if ast.operation = OpDelete then renderDelete ast []
    else if ast.operation = OpFetch then renderFetch ast []
    else if ast.operation = OpUpdate then renderUpdate ast []
    else .error ("unsupported operation: " ++ ast.operation)

end Milvus

/-! ## Expression builders (expressions.go) -/

namespace Expr

/-- `F` from expressions.go. -/
def F (field : MetadataField) (op : FilterOperator) (value : Param) : FilterCondition :=
  ⟨field, op, value⟩

/-- `Eq` from expressions.go. -/
def eqCond (field : MetadataField) (value : Param) : FilterCondition :=
  F field EQ value

/-- `Exists` from expressions.go: the `Value` field is left at its Go zero
value, i.e. a `Param` with empty name. -/
def existsCond (field : MetadataField) : FilterCondition :=
  ⟨field, ExistsOp, ⟨""⟩⟩

/-- `NotExists` from expressions.go: `Value` is the zero `Param`. -/
def notExistsCond (field : MetadataField) : FilterCondition :=
  ⟨field, NotExistsOp, ⟨""⟩⟩

/-- `Geo` from expressions.go. -/
def geoCond (field : MetadataField) (lat lon radius : Param) : GeoFilter :=
  ⟨field, ⟨lat, lon⟩, radius⟩

end Expr

/-! ## Claim-side measurement functions

These definitions formalize vocabulary used by the specification claims
(parameter occurrences in a filter tree, nesting depth); they are not
translations of Go code. -/

mutual

/-- All `Param` names occurring in a filter tree, in tree order. -/
def filterParams : FilterItem → List String
  | .condition c => [c.value.name]
  | .group _ conds => filterParamsList conds
  | .range r =>
    (match r.min with | some p => [p.name] | none => []) ++
    (match r.max with | some p => [p.name] | none => [])
  | .geo g => [g.center.lat.name, g.center.lon.name, g.radius.name]

def filterParamsList : List FilterItem → List String
  | [] => []
  | c :: cs => filterParams c ++ filterParamsList cs

end

/-- The `Param` names of a possibly absent filter clause. -/
def clauseParams : Option FilterItem → List String
  | some f => filterParams f
  | none => []

/-- The `Param` name of a possibly absent query vector, when the vector is
a parameter reference. -/
def vectorParamNames : Option VectorValue → List String
  | some vv => match vv.param with | some p => [p.name] | none => []
  | none => []

mutual

/-- Nesting depth in the sense of the spec: incremented once per
`FilterGroup` nesting level; condition, range and geo leaves have depth 0. -/
def nestingDepth : FilterItem → Nat
  | .group _ conds => 1 + nestingDepthList conds
  | _ => 0

def nestingDepthList : List FilterItem → Nat
  | [] => 0
  | c :: cs => max (nestingDepth c) (nestingDepthList cs)

end

mutual

/-- The largest recursion depth at which `validateFilterDepth` visits a
node of the tree, relative to the root's own depth. -/
def maxVisit : FilterItem → Nat
  | .group _ [] => 0
  | .group _ (c :: cs) => 1 + maxVisitList (c :: cs)
  | _ => 0

def maxVisitList : List FilterItem → Nat
  | [] => 0
  | c :: cs => max (maxVisit c) (maxVisitList cs)

end

mutual

/-- Every NOT group in the tree has at most one child (the contract of the
`Not` convenience constructor; the tree shape itself does not enforce it). -/
def notArityOk : FilterItem → Bool
  | .group logic conds => (decide (logic = NOT → conds.length ≤ 1)) && notArityOkList conds
  | _ => true

def notArityOkList : List FilterItem → Bool
  | [] => true
  | c :: cs => notArityOk c && notArityOkList cs

end

/-! ## Helper lemmas: parameter-accumulator completeness of the filter
walks -/

mutual

theorem pc_rf_mem : ∀ (f : FilterItem) (ps : List String) (v : JValue) (ps2 : List String),
    Pinecone.renderFilter f ps = .ok (v, ps2) →
    (∀ n, n ∈ ps → n ∈ ps2) ∧ (∀ n, n ∈ filterParams f → n ∈ ps2)
  | .condition c, ps, v, ps2 => by
    intro h
    simp only [Pinecone.renderFilter, Except.ok.injEq, Prod.mk.injEq] at h
    obtain ⟨-, h2⟩ := h
    subst h2
    constructor
    · intro n hn; simp [hn]
    · intro n hn; simp [filterParams] at hn; simp [hn]
  | .group logic conds, ps, v, ps2 => by
    intro h
    simp only [Pinecone.renderFilter] at h
    split at h
    · exact absurd h (by simp)
    next vs ps3 hcall =>
      simp only [Except.ok.injEq, Prod.mk.injEq] at h
      obtain ⟨-, h2⟩ := h
      subst h2
      have := pc_rfl_mem conds ps _ _ hcall
      simpa [filterParams] using this
  | .range r, ps, v, ps2 => by
    intro h
    simp only [Pinecone.renderFilter] at h
    cases hmin : r.min <;> cases hmax : r.max <;>
      simp only [hmin, hmax, Except.ok.injEq, Prod.mk.injEq] at h <;>
      obtain ⟨-, h2⟩ := h <;> subst h2 <;>
      constructor <;> intro n hn <;>
      simp [filterParams, hmin, hmax] at * <;> tauto
  | .geo g, ps, v, ps2 => by
    intro h
    simp [Pinecone.renderFilter] at h

theorem pc_rfl_mem : ∀ (l : List FilterItem) (ps : List String) (vs : List JValue)
    (ps2 : List String),
    Pinecone.renderFilterList l ps = .ok (vs, ps2) →
    (∀ n, n ∈ ps → n ∈ ps2) ∧ (∀ n, n ∈ filterParamsList l → n ∈ ps2)
  | [], ps, vs, ps2 => by
    intro h
    simp only [Pinecone.renderFilterList, Except.ok.injEq, Prod.mk.injEq] at h
    obtain ⟨-, h2⟩ := h
    subst h2
    exact ⟨fun n hn => hn, by simp [filterParamsList]⟩
  | c :: cs, ps, vs, ps2 => by
    intro h
    simp only [Pinecone.renderFilterList] at h
    split at h
    · exact absurd h (by simp)
    next v1 ps3 hc =>
      split at h
      · exact absurd h (by simp)
      next vs2 ps4 hcs =>
        simp only [Except.ok.injEq, Prod.mk.injEq] at h
        obtain ⟨-, h2⟩ := h
        subst h2
        have ha := pc_rf_mem c ps v1 ps3 hc
        have hb := pc_rfl_mem cs ps3 vs2 ps4 hcs
        refine ⟨fun n hn => hb.1 n (ha.1 n hn), ?_⟩
        intro n hn
        simp only [filterParamsList, List.mem_append] at hn
        rcases hn with hn | hn
        · exact hb.1 n (ha.2 n hn)
        · exact hb.2 n hn

end

mutual

theorem qd_rf_mem : ∀ (f : FilterItem) (ps : List String) (v : JValue) (ps2 : List String),
    Qdrant.renderFilter f ps = .ok (v, ps2) →
    (∀ n, n ∈ ps → n ∈ ps2) ∧ (∀ n, n ∈ filterParams f → n ∈ ps2)
  | .condition c, ps, v, ps2 => by
    intro h
    simp only [Qdrant.renderFilter, Except.ok.injEq, Prod.mk.injEq] at h
    obtain ⟨-, h2⟩ := h
    subst h2
    exact ⟨fun n hn => by simp [hn], fun n hn => by simp [filterParams] at hn; simp [hn]⟩
  | .group logic conds, ps, v, ps2 => by
    intro h
    simp only [Qdrant.renderFilter] at h
    split at h
    · exact absurd h (by simp)
    next vs ps3 hcall =>
      simp only [Except.ok.injEq, Prod.mk.injEq] at h
      obtain ⟨-, h2⟩ := h
      subst h2
      have := qd_rfl_mem conds ps _ _ hcall
      simpa [filterParams] using this
  | .range r, ps, v, ps2 => by
    intro h
    simp only [Qdrant.renderFilter] at h
    cases hmin : r.min <;> cases hmax : r.max <;>
      simp only [hmin, hmax, Except.ok.injEq, Prod.mk.injEq] at h <;>
      obtain ⟨-, h2⟩ := h <;> subst h2 <;>
      constructor <;> intro n hn <;>
      simp [filterParams, hmin, hmax] at * <;> tauto
  | .geo g, ps, v, ps2 => by
    intro h
    simp only [Qdrant.renderFilter, Except.ok.injEq, Prod.mk.injEq] at h
    obtain ⟨-, h2⟩ := h
    subst h2
    constructor <;> intro n hn <;> simp [filterParams] at * <;> tauto

theorem qd_rfl_mem : ∀ (l : List FilterItem) (ps : List String) (vs : List JValue)
    (ps2 : List String),
    Qdrant.renderFilterList l ps = .ok (vs, ps2) →
    (∀ n, n ∈ ps → n ∈ ps2) ∧ (∀ n, n ∈ filterParamsList l → n ∈ ps2)
  | [], ps, vs, ps2 => by
    intro h
    simp only [Qdrant.renderFilterList, Except.ok.injEq, Prod.mk.injEq] at h
    obtain ⟨-, h2⟩ := h
    subst h2
    exact ⟨fun n hn => hn, by simp [filterParamsList]⟩
  | c :: cs, ps, vs, ps2 => by
    intro h
    simp only [Qdrant.renderFilterList] at h
    split at h
    · exact absurd h (by simp)
    next v1 ps3 hc =>
      split at h
      · exact absurd h (by simp)
      next vs2 ps4 hcs =>
        simp only [Except.ok.injEq, Prod.mk.injEq] at h
        obtain ⟨-, h2⟩ := h
        subst h2
        have ha := qd_rf_mem c ps v1 ps3 hc
        have hb := qd_rfl_mem cs ps3 vs2 ps4 hcs
        refine ⟨fun n hn => hb.1 n (ha.1 n hn), ?_⟩
        intro n hn
        simp only [filterParamsList, List.mem_append] at hn
        rcases hn with hn | hn
        · exact hb.1 n (ha.2 n hn)
        · exact hb.2 n hn

end

mutual

theorem wv_rf_mem : ∀ (f : FilterItem) (ps : List String) (v : JValue) (ps2 : List String),
    Weaviate.renderFilter f ps = .ok (v, ps2) →
    (∀ n, n ∈ ps → n ∈ ps2) ∧ (∀ n, n ∈ filterParams f → n ∈ ps2)
  | .condition c, ps, v, ps2 => by
    intro h
    simp only [Weaviate.renderFilter, Except.ok.injEq, Prod.mk.injEq] at h
    obtain ⟨-, h2⟩ := h
    subst h2
    exact ⟨fun n hn => by simp [hn], fun n hn => by simp [filterParams] at hn; simp [hn]⟩
  | .group logic conds, ps, v, ps2 => by
    intro h
    simp only [Weaviate.renderFilter] at h
    split at h
    · exact absurd h (by simp)
    next vs ps3 hcall =>
      simp only [Except.ok.injEq, Prod.mk.injEq] at h
      obtain ⟨-, h2⟩ := h
      subst h2
      have := wv_rfl_mem conds ps _ _ hcall
      simpa [filterParams] using this
  | .range r, ps, v, ps2 => by
    intro h
    simp only [Weaviate.renderFilter] at h
    cases hmin : r.min <;> cases hmax : r.max <;>
      simp only [hmin, hmax, List.singleton_append, List.nil_append,
        Except.ok.injEq, Prod.mk.injEq] at h <;>
      obtain ⟨-, rfl⟩ := h <;>
      constructor <;> intro n hn <;>
      simp [filterParams, hmin, hmax] at * <;> tauto
  | .geo g, ps, v, ps2 => by
    intro h
    simp only [Weaviate.renderFilter, Except.ok.injEq, Prod.mk.injEq] at h
    obtain ⟨-, rfl⟩ := h
    constructor <;> intro n hn <;> simp [filterParams] at * <;> tauto

theorem wv_rfl_mem : ∀ (l : List FilterItem) (ps : List String) (vs : List JValue)
    (ps2 : List String),
    Weaviate.renderFilterList l ps = .ok (vs, ps2) →
    (∀ n, n ∈ ps → n ∈ ps2) ∧ (∀ n, n ∈ filterParamsList l → n ∈ ps2)
  | [], ps, vs, ps2 => by
    intro h
    simp only [Weaviate.renderFilterList, Except.ok.injEq, Prod.mk.injEq] at h
    obtain ⟨-, h2⟩ := h
    subst h2
    exact ⟨fun n hn => hn, by simp [filterParamsList]⟩
  | c :: cs, ps, vs, ps2 => by
    intro h
    simp only [Weaviate.renderFilterList] at h
    split at h
    · exact absurd h (by simp)
    next v1 ps3 hc =>
      split at h
      · exact absurd h (by simp)
      next vs2 ps4 hcs =>
        simp only [Except.ok.injEq, Prod.mk.injEq] at h
        obtain ⟨-, h2⟩ := h
        subst h2
        have ha := wv_rf_mem c ps v1 ps3 hc
        have hb := wv_rfl_mem cs ps3 vs2 ps4 hcs
        refine ⟨fun n hn => hb.1 n (ha.1 n hn), ?_⟩
        intro n hn
        simp only [filterParamsList, List.mem_append] at hn
        rcases hn with hn | hn
        · exact hb.1 n (ha.2 n hn)
        · exact hb.2 n hn

end

mutual

theorem mv_rf_mem : ∀ (f : FilterItem) (ps : List String) (v : String) (ps2 : List String),
    notArityOk f = true →
    Milvus.renderFilter f ps = .ok (v, ps2) →
    (∀ n, n ∈ ps → n ∈ ps2) ∧ (∀ n, n ∈ filterParams f → n ∈ ps2)
  | .condition c, ps, v, ps2 => by
    intro _ h
    simp only [Milvus.renderFilter, Except.ok.injEq, Prod.mk.injEq] at h
    obtain ⟨-, h2⟩ := h
    subst h2
    exact ⟨fun n hn => by simp [hn], fun n hn => by simp [filterParams] at hn; simp [hn]⟩
  | .group logic conds, ps, v, ps2 => by
    intro harity h
    simp only [notArityOk, Bool.and_eq_true, decide_eq_true_eq] at harity
    obtain ⟨hnot, hconds⟩ := harity
    rw [Milvus.renderFilter.eq_def] at h
    dsimp only at h
    by_cases hlogic : logic = NOT
    · rw [if_pos hlogic] at h
      cases hcs : conds with
      | nil =>
        rw [hcs] at h
        simp only [Except.ok.injEq, Prod.mk.injEq] at h
        obtain ⟨-, rfl⟩ := h
        exact ⟨fun n hn => hn, by simp [filterParams, hcs, filterParamsList]⟩
      | cons c rest =>
        have hrest : rest = [] := by
          have hlen := hnot hlogic
          rw [hcs] at hlen
          cases rest
          · rfl
          · simp at hlen
        rw [hcs] at h
        dsimp only at h
        split at h
        · exact absurd h (by simp)
        next inner ps3 hc =>
          simp only [Except.ok.injEq, Prod.mk.injEq] at h
          obtain ⟨-, rfl⟩ := h
          have hcok : notArityOk c = true := by
            rw [hcs] at hconds
            simp only [notArityOkList, Bool.and_eq_true] at hconds
            exact hconds.1
          have := mv_rf_mem c ps _ _ hcok hc
          refine ⟨this.1, ?_⟩
          intro n hn
          simp only [filterParams, hcs, hrest, filterParamsList, List.append_nil] at hn
          exact this.2 n hn
    · rw [if_neg hlogic] at h
      split at h
      · exact absurd h (by simp)
      next vs ps3 hcall =>
        simp only [Except.ok.injEq, Prod.mk.injEq] at h
        obtain ⟨-, rfl⟩ := h
        have := mv_rfl_mem conds ps _ _ hconds hcall
        simpa [filterParams] using this
  | .range r, ps, v, ps2 => by
    intro _ h
    simp only [Milvus.renderFilter] at h
    cases hmin : r.min <;> cases hmax : r.max <;>
      simp only [hmin, hmax, Except.ok.injEq, Prod.mk.injEq] at h <;>
      obtain ⟨-, h2⟩ := h <;> subst h2 <;>
      constructor <;> intro n hn <;>
      simp [filterParams, hmin, hmax] at * <;> tauto
  | .geo g, ps, v, ps2 => by
    intro _ h
    simp [Milvus.renderFilter] at h

theorem mv_rfl_mem : ∀ (l : List FilterItem) (ps : List String) (vs : List String)
    (ps2 : List String),
    notArityOkList l = true →
    Milvus.renderFilterList l ps = .ok (vs, ps2) →
    (∀ n, n ∈ ps → n ∈ ps2) ∧ (∀ n, n ∈ filterParamsList l → n ∈ ps2)
  | [], ps, vs, ps2 => by
    intro _ h
    simp only [Milvus.renderFilterList, Except.ok.injEq, Prod.mk.injEq] at h
    obtain ⟨-, h2⟩ := h
    subst h2
    exact ⟨fun n hn => hn, by simp [filterParamsList]⟩
  | c :: cs, ps, vs, ps2 => by
    intro harity h
    simp only [notArityOkList, Bool.and_eq_true] at harity
    obtain ⟨hc1, hcs1⟩ := harity
    simp only [Milvus.renderFilterList] at h
    split at h
    · exact absurd h (by simp)
    next v1 ps3 hc =>
      split at h
      · exact absurd h (by simp)
      next vs2 ps4 hcs =>
        simp only [Except.ok.injEq, Prod.mk.injEq] at h
        obtain ⟨-, h2⟩ := h
        subst h2
        have ha := mv_rf_mem c ps v1 ps3 hc1 hc
        have hb := mv_rfl_mem cs ps3 vs2 ps4 hcs1 hcs
        refine ⟨fun n hn => hb.1 n (ha.1 n hn), ?_⟩
        intro n hn
        simp only [filterParamsList, List.mem_append] at hn
        rcases hn with hn | hn
        · exact hb.1 n (ha.2 n hn)
        · exact hb.2 n hn

end

/-- Every NOT group of an optional filter clause has at most one child. -/
def notArityOkClause : Option FilterItem → Bool
  | some f => notArityOk f
  | none => true

theorem renderIDs_spec : ∀ (ids : List Param) (ps : List String),
    renderIDs ids ps = (ids.map (fun i => ":" ++ i.name), ps ++ ids.map Param.name) := by
  intro ids
  induction ids with
  | nil => intro ps; simp [renderIDs]
  | cons i rest ih => intro ps; simp [renderIDs, ih]

theorem pc_emitTail_mem : ∀ (ast : VectorAST) (q : List (String × JValue))
    (ps : List String) (res : QueryResult),
    Pinecone.emitTail ast q ps = .ok res → ∀ n, n ∈ ps → n ∈ res.requiredParams := by
  intro ast q ps res h n hn
  simp only [Pinecone.emitTail] at h
  split at h <;> simp only [toResult, Except.ok.injEq] at h <;> subst h <;> simp [hn]

theorem wv_tenantTail_mem : ∀ (ast : VectorAST) (q : List (String × JValue))
    (ps : List String) (res : QueryResult),
    Weaviate.tenantTail ast q ps = .ok res → ∀ n, n ∈ ps → n ∈ res.requiredParams := by
  intro ast q ps res h n hn
  simp only [Weaviate.tenantTail] at h
  split at h <;> simp only [toResult, Except.ok.injEq] at h <;> subst h <;> simp [hn]

theorem wv_searchTail_mem : ∀ (ast : VectorAST) (q : List (String × JValue))
    (ps : List String) (res : QueryResult),
    Weaviate.searchTail ast q ps = .ok res → ∀ n, n ∈ ps → n ∈ res.requiredParams := by
  intro ast q ps res h n hn
  simp only [Weaviate.searchTail] at h
  split at h <;> split at h <;> simp only [toResult, Except.ok.injEq] at h <;> subst h <;>
    simp [hn]

theorem mv_partitionsTail_mem : ∀ (ast : VectorAST) (q : List (String × JValue))
    (ps : List String) (res : QueryResult),
    Milvus.partitionsTail ast q ps = .ok res → ∀ n, n ∈ ps → n ∈ res.requiredParams := by
  intro ast q ps res h n hn
  simp only [Milvus.partitionsTail] at h
  split at h <;> simp only [toResult, Except.ok.injEq] at h <;> subst h <;> simp [hn]

set_option maxHeartbeats 1000000 in
theorem pc_renderSearch_mem : ∀ (ast : VectorAST) (ps : List String) (res : QueryResult),
    Pinecone.renderSearch ast ps = .ok res →
    (∀ n, n ∈ ps → n ∈ res.requiredParams) ∧
    (∀ n, n ∈ clauseParams ast.filterClause → n ∈ res.requiredParams) ∧
    (∀ n, n ∈ vectorParamNames ast.queryVector → n ∈ res.requiredParams) := by
  intro ast ps res h
  simp only [Pinecone.renderSearch, Pinecone.searchTail] at h
  split at h
  next heqf =>
    repeat' split at h
    all_goals refine ⟨?_, ?_, ?_⟩ <;> intro n hn <;>
      exact pc_emitTail_mem _ _ _ _ h n (by simp_all [clauseParams, vectorParamNames])
  next fc heqf =>
    split at h
    · exact absurd h (by simp)
    next fv params2 hfc =>
      have hf := pc_rf_mem _ _ _ _ hfc
      refine ⟨?_, ?_, ?_⟩ <;> intro n hn
      · refine pc_emitTail_mem _ _ _ _ h n (hf.1 n ?_)
        repeat' split
        all_goals simp_all [clauseParams, vectorParamNames]
      · refine pc_emitTail_mem _ _ _ _ h n (hf.2 n ?_)
        simp_all [clauseParams]
      · refine pc_emitTail_mem _ _ _ _ h n (hf.1 n ?_)
        repeat' split
        all_goals simp_all [clauseParams, vectorParamNames]

set_option maxHeartbeats 1000000 in
theorem qd_renderSearch_mem : ∀ (r : Qdrant.Renderer) (ast : VectorAST) (ps : List String)
    (res : QueryResult),
    Qdrant.renderSearch r ast ps = .ok res →
    (∀ n, n ∈ ps → n ∈ res.requiredParams) ∧
    (∀ n, n ∈ clauseParams ast.filterClause → n ∈ res.requiredParams) ∧
    (∀ n, n ∈ vectorParamNames ast.queryVector → n ∈ res.requiredParams) := by
  intro r ast ps res h
  simp only [Qdrant.renderSearch] at h
  split at h
  next heqf =>
    repeat' split at h
    all_goals simp only [toResult, Except.ok.injEq] at h
    all_goals subst h
    all_goals refine ⟨?_, ?_, ?_⟩ <;> intro n hn <;>
      simp_all [clauseParams, vectorParamNames]
  next fc heqf =>
    split at h
    · exact absurd h (by simp)
    next fv params2 hfc =>
      have hf := qd_rf_mem _ _ _ _ hfc
      simp only [toResult, Except.ok.injEq] at h
      subst h
      refine ⟨?_, ?_, ?_⟩ <;> intro n hn
      · refine hf.1 n ?_
        repeat' split
        all_goals simp_all [clauseParams, vectorParamNames]
      · simpa using hf.2 n (by simp_all [clauseParams])
      · refine hf.1 n ?_
        repeat' split
        all_goals simp_all [clauseParams, vectorParamNames]

set_option maxHeartbeats 1000000 in
theorem wv_renderSearch_mem : ∀ (ast : VectorAST) (ps : List String) (res : QueryResult),
    Weaviate.renderSearch ast ps = .ok res →
    (∀ n, n ∈ ps → n ∈ res.requiredParams) ∧
    (∀ n, n ∈ clauseParams ast.filterClause → n ∈ res.requiredParams) ∧
    (∀ n, n ∈ vectorParamNames ast.queryVector → n ∈ res.requiredParams) := by
  intro ast ps res h
  simp only [Weaviate.renderSearch] at h
  split at h
  next heqf =>
    repeat' split at h
    all_goals refine ⟨?_, ?_, ?_⟩ <;> intro n hn <;>
      exact wv_searchTail_mem _ _ _ _ h n (by simp_all [clauseParams, vectorParamNames])
  next fc heqf =>
    split at h
    · exact absurd h (by simp)
    next fv params2 hfc =>
      have hf := wv_rf_mem _ _ _ _ hfc
      refine ⟨?_, ?_, ?_⟩ <;> intro n hn
      · refine wv_searchTail_mem _ _ _ _ h n (hf.1 n ?_)
        repeat' split
        all_goals simp_all [clauseParams, vectorParamNames]
      · refine wv_searchTail_mem _ _ _ _ h n (hf.2 n ?_)
        simp_all [clauseParams]
      · refine wv_searchTail_mem _ _ _ _ h n (hf.1 n ?_)
        repeat' split
        all_goals simp_all [clauseParams, vectorParamNames]

set_option maxHeartbeats 1000000 in
theorem mv_renderSearch_mem : ∀ (r : Milvus.Renderer) (ast : VectorAST) (ps : List String)
    (res : QueryResult),
    notArityOkClause ast.filterClause = true →
    Milvus.renderSearch r ast ps = .ok res →
    (∀ n, n ∈ ps → n ∈ res.requiredParams) ∧
    (∀ n, n ∈ clauseParams ast.filterClause → n ∈ res.requiredParams) ∧
    (∀ n, n ∈ vectorParamNames ast.queryVector → n ∈ res.requiredParams) := by
  intro r ast ps res harity h
  simp only [Milvus.renderSearch] at h
  split at h
  next heqf =>
    repeat' split at h
    all_goals refine ⟨?_, ?_, ?_⟩ <;> intro n hn <;>
      exact mv_partitionsTail_mem _ _ _ _ h n (by simp_all [clauseParams, vectorParamNames])
  next fc heqf =>
    rw [heqf] at harity
    simp only [notArityOkClause] at harity
    split at h
    · exact absurd h (by simp)
    next fv params2 hfc =>
      have hf := mv_rf_mem _ _ _ _ harity hfc
      refine ⟨?_, ?_, ?_⟩ <;> intro n hn
      · refine mv_partitionsTail_mem _ _ _ _ h n (hf.1 n ?_)
        repeat' split
        all_goals simp_all [clauseParams, vectorParamNames]
      · refine mv_partitionsTail_mem _ _ _ _ h n (hf.2 n ?_)
        simp_all [clauseParams]
      · refine mv_partitionsTail_mem _ _ _ _ h n (hf.1 n ?_)
        repeat' split
        all_goals simp_all [clauseParams, vectorParamNames]

theorem pc_renderFetch_mem : ∀ (ast : VectorAST) (ps : List String) (res : QueryResult),
    Pinecone.renderFetch ast ps = .ok res →
    ∀ n, n ∈ ps ++ ast.ids.map Param.name → n ∈ res.requiredParams := by
  intro ast ps res h n hn
  simp only [Pinecone.renderFetch, renderIDs_spec] at h
  exact pc_emitTail_mem _ _ _ _ h n hn

theorem qd_renderFetch_mem : ∀ (ast : VectorAST) (ps : List String) (res : QueryResult),
    Qdrant.renderFetch ast ps = .ok res →
    ∀ n, n ∈ ps ++ ast.ids.map Param.name → n ∈ res.requiredParams := by
  intro ast ps res h n hn
  simp only [Qdrant.renderFetch, renderIDs_spec, toResult, Except.ok.injEq] at h
  subst h
  simpa using hn

theorem wv_renderFetch_mem : ∀ (ast : VectorAST) (ps : List String) (res : QueryResult),
    Weaviate.renderFetch ast ps = .ok res →
    ∀ n, n ∈ ps ++ ast.ids.map Param.name → n ∈ res.requiredParams := by
  intro ast ps res h n hn
  simp only [Weaviate.renderFetch, renderIDs_spec] at h
  repeat' split at h
  all_goals exact wv_tenantTail_mem _ _ _ _ h n hn

theorem mv_renderFetch_mem : ∀ (ast : VectorAST) (ps : List String) (res : QueryResult),
    Milvus.renderFetch ast ps = .ok res →
    ∀ n, n ∈ ps ++ ast.ids.map Param.name → n ∈ res.requiredParams := by
  intro ast ps res h n hn
  simp only [Milvus.renderFetch, renderIDs_spec] at h
  repeat' split at h
  all_goals exact mv_partitionsTail_mem _ _ _ _ h n hn

/-! ## Claim C1 -/

/-- A valid DELETE IR carrying both IDs and a filter: renderers take the
ID branch and never visit the filter, so the filter's `Param` is dropped. -/
def c1Ast : VectorAST :=
  { operation := OpDelete, target := ⟨"products"⟩, queryVector := none,
    queryEmbedding := none, topK := none, minScore := none, includeVectors := false,
    includeMetadata := false,
    filterClause := some (.condition ⟨⟨"category", ""⟩, EQ, ⟨"cat"⟩⟩),
    metadataFields := [], vectors := [], updates := [], ids := [⟨"id1"⟩],
    deleteAll := true, nspace := none }

/-- C1, counterexample: `c1Ast` is valid and renders successfully on
Pinecone, the name `cat` occurs as a `Param` in its filter tree, yet the
returned `RequiredParams` list is exactly `["id1"]`, which does not contain
`cat`. -/
theorem c1_counterexample :
    Validate c1Ast = .ok () ∧
    Pinecone.Render c1Ast = .ok ⟨"\x7b\"ids\":[\":id1\"]\x7d", ["id1"]⟩ ∧
    "cat" ∈ clauseParams c1Ast.filterClause ∧
    "cat" ∉ (["id1"] : List String) := by
  refine ⟨by rfl, by rfl, by decide, by decide⟩

/-- C1 (amended): for each of the four renderers, every `Param` occurring
in the filter tree or as the query-vector parameter of a successfully
rendered SEARCH IR appears in `RequiredParams` (for Milvus, provided every
NOT group has at most one child, since Milvus renders only a NOT group's
first child), and every `Param` of the ID list of a successfully rendered
FETCH IR appears in `RequiredParams`.  The original universal statement
over filter/vector/ID fields of arbitrary IRs is refuted by
`c1_counterexample`. -/
theorem c1_param_completeness :
    (∀ (ast : VectorAST) (res : QueryResult), Pinecone.Render ast = .ok res →
      (ast.operation = OpSearch →
        (∀ n, n ∈ clauseParams ast.filterClause → n ∈ res.requiredParams) ∧
        (∀ n, n ∈ vectorParamNames ast.queryVector → n ∈ res.requiredParams)) ∧
      (ast.operation = OpFetch →
        ∀ n, n ∈ ast.ids.map Param.name → n ∈ res.requiredParams)) ∧
    (∀ (r : Qdrant.Renderer) (ast : VectorAST) (res : QueryResult),
      Qdrant.Render r ast = .ok res →
      (ast.operation = OpSearch →
        (∀ n, n ∈ clauseParams ast.filterClause → n ∈ res.requiredParams) ∧
        (∀ n, n ∈ vectorParamNames ast.queryVector → n ∈ res.requiredParams)) ∧
      (ast.operation = OpFetch →
        ∀ n, n ∈ ast.ids.map Param.name → n ∈ res.requiredParams)) ∧
    (∀ (ast : VectorAST) (res : QueryResult), Weaviate.Render ast = .ok res →
      (ast.operation = OpSearch →
        (∀ n, n ∈ clauseParams ast.filterClause → n ∈ res.requiredParams) ∧
        (∀ n, n ∈ vectorParamNames ast.queryVector → n ∈ res.requiredParams)) ∧
      (ast.operation = OpFetch →
        ∀ n, n ∈ ast.ids.map Param.name → n ∈ res.requiredParams)) ∧
    (∀ (r : Milvus.Renderer) (ast : VectorAST) (res : QueryResult),
      Milvus.Render r ast = .ok res →
      (ast.operation = OpSearch → notArityOkClause ast.filterClause = true →
        (∀ n, n ∈ clauseParams ast.filterClause → n ∈ res.requiredParams) ∧
        (∀ n, n ∈ vectorParamNames ast.queryVector → n ∈ res.requiredParams)) ∧
      (ast.operation = OpFetch →
        ∀ n, n ∈ ast.ids.map Param.name → n ∈ res.requiredParams)) := by
  refine ⟨?_, ?_, ?_, ?_⟩
  · intro ast res h
    simp only [Pinecone.Render] at h
    split at h
    · exact absurd h (by simp)
    constructor
    · intro hop
      rw [hop] at h
      simp only [OpSearch, OpUpsert, OpDelete, OpFetch, OpUpdate, reduceIte] at h
      have := pc_renderSearch_mem _ _ _ h
      exact ⟨this.2.1, this.2.2⟩
    · intro hop
      rw [hop] at h
      simp only [OpSearch, OpUpsert, OpDelete, OpFetch, OpUpdate, reduceIte] at h
      intro n hn
      exact pc_renderFetch_mem _ _ _ h n (by simp [hn])
  · intro r ast res h
    simp only [Qdrant.Render] at h
    split at h
    · exact absurd h (by simp)
    constructor
    · intro hop
      rw [hop] at h
      simp only [OpSearch, OpUpsert, OpDelete, OpFetch, OpUpdate, reduceIte] at h
      have := qd_renderSearch_mem _ _ _ _ h
      exact ⟨this.2.1, this.2.2⟩
    · intro hop
      rw [hop] at h
      simp only [OpSearch, OpUpsert, OpDelete, OpFetch, OpUpdate, reduceIte] at h
      intro n hn
      exact qd_renderFetch_mem _ _ _ h n (by simp [hn])
  · intro ast res h
    simp only [Weaviate.Render] at h
    split at h
    · exact absurd h (by simp)
    constructor
    · intro hop
      rw [hop] at h
      simp only [OpSearch, OpUpsert, OpDelete, OpFetch, OpUpdate, reduceIte] at h
      have := wv_renderSearch_mem _ _ _ h
      exact ⟨this.2.1, this.2.2⟩
    · intro hop
      rw [hop] at h
      simp only [OpSearch, OpUpsert, OpDelete, OpFetch, OpUpdate, reduceIte] at h
      intro n hn
      exact wv_renderFetch_mem _ _ _ h n (by simp [hn])
  · intro r ast res h
    simp only [Milvus.Render] at h
    split at h
    · exact absurd h (by simp)
    constructor
    · intro hop harity
      rw [hop] at h
      simp only [OpSearch, OpUpsert, OpDelete, OpFetch, OpUpdate, reduceIte] at h
      have := mv_renderSearch_mem _ _ _ _ harity h
      exact ⟨this.2.1, this.2.2⟩
    · intro hop
      rw [hop] at h
      simp only [OpSearch, OpUpsert, OpDelete, OpFetch, OpUpdate, reduceIte] at h
      intro n hn
      exact mv_renderFetch_mem _ _ _ h n (by simp [hn])

/-- A valid SEARCH IR with a parameter query vector and an equality
filter condition. -/
def c1SearchAst : VectorAST :=
  { operation := OpSearch, target := ⟨"products"⟩,
    queryVector := some ⟨[], some ⟨"query_vec"⟩⟩, queryEmbedding := none,
    topK := some ⟨some 10, none⟩, minScore := none, includeVectors := false,
    includeMetadata := true,
    filterClause := some (.condition ⟨⟨"category", ""⟩, EQ, ⟨"cat"⟩⟩),
    metadataFields := [], vectors := [], updates := [], ids := [],
    deleteAll := false, nspace := none }

/-- C1, witness: on a concrete SEARCH IR the filter parameter `cat` is
found in the rendered `RequiredParams`, by `c1_param_completeness`. -/
theorem c1_witness :
    "cat" ∈ (QueryResult.mk
      "\x7b\"filter\":\x7b\"category\":\x7b\"$eq\":\":cat\"\x7d\x7d,\"includeMetadata\":true,\"includeValues\":false,\"topK\":10,\"vector\":\":query_vec\"\x7d"
      ["query_vec", "cat"]).requiredParams :=
  ((c1_param_completeness.1 c1SearchAst _ (by rfl)).1 rfl).1 "cat" (by decide)

/-! ## Claim C2 -/

/-- A valid SEARCH IR whose filter tree is a single `GeoFilter`. -/
def c2Ast : VectorAST :=
  { operation := OpSearch, target := ⟨"products"⟩,
    queryVector := some ⟨[], some ⟨"query_vec"⟩⟩, queryEmbedding := none,
    topK := some ⟨some 10, none⟩, minScore := none, includeVectors := false,
    includeMetadata := true,
    filterClause := some (.geo (Expr.geoCond ⟨"location", ""⟩ ⟨"lat"⟩ ⟨"lon"⟩ ⟨"radius"⟩)),
    metadataFields := [], vectors := [], updates := [], ids := [],
    deleteAll := false, nspace := none }

/-- C2, counterexample: `c2Ast` passes validation, yet the Pinecone
renderer fails on its `GeoFilter` with the defensive unsupported-variant
error — so geo rendering does not succeed for every dialect renderer, and
the defensive branch is reachable. -/
theorem c2_counterexample :
    Validate c2Ast = .ok () ∧
    Pinecone.Render c2Ast = .error "unsupported filter type: types.GeoFilter" :=
  ⟨by rfl, by rfl⟩

/-- C2 (amended): Qdrant and Weaviate render a `GeoFilter` to a single
within-radius-of-point clause and append exactly the three parameter names
lat, lon, radius in that fixed order; Pinecone and Milvus have no
`GeoFilter` case, so the defensive unsupported-variant branch is reachable
and returns a rendering error naming the offending type. -/
theorem c2_geo_rendering :
    (∀ (g : GeoFilter) (ps : List String),
      Qdrant.renderFilter (.geo g) ps =
        .ok (.obj [(Qdrant.condMust,
            .arr [.obj [("key", .str g.field.name),
                        ("geo_radius",
                          .obj [("center",
                                  .obj [("lat", .str (":" ++ g.center.lat.name)),
                                        ("lon", .str (":" ++ g.center.lon.name))]),
                                ("radius", .str (":" ++ g.radius.name))])]])],
          ps ++ [g.center.lat.name, g.center.lon.name, g.radius.name])) ∧
    (∀ (g : GeoFilter) (ps : List String),
      Weaviate.renderFilter (.geo g) ps =
        .ok (.obj [("path", .arr [.str g.field.name]),
                   ("operator", .str "WithinGeoRange"),
                   ("valueGeoRange",
                     .obj [("geoCoordinates",
                             .obj [("latitude", .str (":" ++ g.center.lat.name)),
                                   ("longitude", .str (":" ++ g.center.lon.name))]),
                           ("distance", .obj [("max", .str (":" ++ g.radius.name))])])],
          ps ++ [g.center.lat.name, g.center.lon.name, g.radius.name])) ∧
    (∀ (g : GeoFilter) (ps : List String),
      Pinecone.renderFilter (.geo g) ps = .error "unsupported filter type: types.GeoFilter") ∧
    (∀ (g : GeoFilter) (ps : List String),
      Milvus.renderFilter (.geo g) ps = .error "unsupported filter type: types.GeoFilter") := by
  refine ⟨?_, ?_, ?_, ?_⟩ <;> intro g ps <;>
    simp [Qdrant.renderFilter, Weaviate.renderFilter, Pinecone.renderFilter,
      Milvus.renderFilter]

/-! ## Claim C3 -/

theorem charListLe_total : ∀ (x y : List Char), charListLe x y = false → charListLe y x = true
  | [], y => by simp [charListLe]
  | c :: cs, [] => by intro _; rfl
  | c :: cs, d :: ds => by
    intro h
    simp only [charListLe] at h ⊢
    by_cases hcd : c = d
    · subst hcd
      simp only [if_pos rfl] at h ⊢
      exact charListLe_total cs ds h
    · have hdc : d ≠ c := fun hh => hcd hh.symm
      rw [if_neg hcd] at h
      rw [if_neg hdc]
      simp only [decide_eq_false_iff_not] at h
      simp only [decide_eq_true_eq]
      rcases lt_trichotomy c d with h1 | h1 | h1
      · exact absurd h1 h
      · exact absurd h1 hcd
      · exact h1

theorem charListLe_antisymm :
    ∀ (x y : List Char), charListLe x y = true → charListLe y x = true → x = y
  | [], [] => by intro _ _; rfl
  | [], d :: ds => by
    intro _ h2
    exact absurd h2 (by simp [charListLe])
  | c :: cs, [] => by
    intro h1 _
    exact absurd h1 (by simp [charListLe])
  | c :: cs, d :: ds => by
    intro h1 h2
    simp only [charListLe] at h1 h2
    by_cases hcd : c = d
    · subst hcd
      simp only [if_pos rfl] at h1 h2
      rw [charListLe_antisymm cs ds h1 h2]
    · have hdc : d ≠ c := fun hh => hcd hh.symm
      rw [if_neg hcd] at h1
      rw [if_neg hdc] at h2
      simp only [decide_eq_true_eq] at h1 h2
      exact absurd (lt_trans h1 h2) (lt_irrefl c)

theorem strLe_total (a b : String) (h : strLe a b = false) : strLe b a = true :=
  charListLe_total a.data b.data h

theorem strLe_antisymm (a b : String) (h1 : strLe a b = true) (h2 : strLe b a = true) :
    a = b := by
  cases a; cases b
  exact congrArg String.mk (charListLe_antisymm _ _ h1 h2)

/-- Sorting a two-field object is invariant under swapping the fields when
the keys differ. -/
theorem sortFields_swap (k1 k2 : String) (v1 v2 : JValue) (hne : k1 ≠ k2) :
    sortFields [(k1, v1), (k2, v2)] = sortFields [(k2, v2), (k1, v1)] := by
  simp only [sortFields, insertSorted]
  cases h12 : strLe k1 k2 <;> cases h21 : strLe k2 k1 <;> simp [h12, h21]
  · exact absurd (strLe_total k1 k2 h12) (by simp [h21])
  · exact absurd (strLe_antisymm k1 k2 h12 h21) hne

/-- An UPSERT IR with one record whose metadata map is given as an
association list in a chosen iteration order. -/
def c3Ast (md : List (MetadataField × Param)) : VectorAST :=
  { operation := OpUpsert, target := ⟨"products"⟩, queryVector := none,
    queryEmbedding := none, topK := none, minScore := none, includeVectors := false,
    includeMetadata := false, filterClause := none, metadataFields := [],
    vectors := [⟨⟨"id1"⟩, ⟨[], some ⟨"vec1"⟩⟩, md, none⟩],
    updates := [], ids := [], deleteAll := false, nspace := none }

theorem c3_render_eq (f1 f2 : MetadataField) (p1 p2 : Param) (hf : f1.name ≠ f2.name) :
    Pinecone.Render (c3Ast [(f1, p1), (f2, p2)]) =
      .ok ⟨serialize (sortJson (.obj [("vectors", .arr [.obj
             [("id", .str ":id1"), ("values", .str ":vec1"),
              ("metadata", .obj [(f1.name, .str (":" ++ p1.name)),
                                 (f2.name, .str (":" ++ p2.name))])]])])),
           ["id1", "vec1", p1.name, p2.name]⟩ := by
  have hval : Validate (c3Ast [(f1, p1), (f2, p2)]) = .ok () := rfl
  simp only [Pinecone.Render, hval, c3Ast, OpSearch, OpUpsert, reduceIte]
  simp only [Pinecone.renderUpsert, Pinecone.renderRecords, Pinecone.renderRecord,
    insertKVs, mapInsert, Pinecone.emitTail, toResult, jsonMarshal]
  rw [if_neg hf]
  rfl

/-- The shared serialized document of the two enumeration orders. -/
def c3Json : String :=
  "\x7b\"vectors\":[\x7b\"id\":\":id1\",\"metadata\":\x7b\"a\":\":pa\",\"b\":\":pb\"\x7d,\"values\":\":vec1\"\x7d]\x7d"

/-- C3, counterexample: the two association lists are the same finite map
(a permutation with distinct keys, i.e. the same Go map enumerated in two
iteration orders), both renders succeed with a byte-identical document,
yet the ordered `RequiredParams` lists differ — so `render` is not a
function of the IR alone, contradicting determinism as claimed, because Go
does not fix a map iteration order. -/
theorem c3_counterexample :
    List.Perm [((⟨"a", ""⟩ : MetadataField), (⟨"pa"⟩ : Param)), (⟨"b", ""⟩, ⟨"pb"⟩)]
      [(⟨"b", ""⟩, ⟨"pb"⟩), (⟨"a", ""⟩, ⟨"pa"⟩)] ∧
    Pinecone.Render (c3Ast [(⟨"a", ""⟩, ⟨"pa"⟩), (⟨"b", ""⟩, ⟨"pb"⟩)]) =
      .ok ⟨c3Json, ["id1", "vec1", "pa", "pb"]⟩ ∧
    Pinecone.Render (c3Ast [(⟨"b", ""⟩, ⟨"pb"⟩), (⟨"a", ""⟩, ⟨"pa"⟩)]) =
      .ok ⟨c3Json, ["id1", "vec1", "pb", "pa"]⟩ ∧
    (["id1", "vec1", "pa", "pb"] : List String) ≠ ["id1", "vec1", "pb", "pa"] :=
  ⟨by decide, by rfl, by rfl, by decide⟩

/-- C3 (amended): with a fixed enumeration order of the IR's maps, render
is a pure function; the serialized document is moreover independent of
that order — swapping two metadata entries of an UPSERT record yields a
byte-identical JSON document (object keys are serialized in sorted order)
— but the ordered `RequiredParams` list is not: it follows the map
iteration order, which Go leaves unspecified, so two renders of the same
IR agree on the document but may permute `RequiredParams` when a record
carries two or more metadata entries.  Shown on the Pinecone UPSERT path. -/
theorem c3_determinism :
    ∀ (f1 f2 : MetadataField) (p1 p2 : Param), f1.name ≠ f2.name → p1.name ≠ p2.name →
      ∃ r1 r2 : QueryResult,
        Pinecone.Render (c3Ast [(f1, p1), (f2, p2)]) = .ok r1 ∧
        Pinecone.Render (c3Ast [(f2, p2), (f1, p1)]) = .ok r2 ∧
        r1.json = r2.json ∧ r1.requiredParams ≠ r2.requiredParams := by
  intro f1 f2 p1 p2 hf hp
  have hf2 : f2.name ≠ f1.name := fun hh => hf hh.symm
  refine ⟨_, _, c3_render_eq f1 f2 p1 p2 hf, c3_render_eq f2 f1 p2 p1 hf2, ?_, ?_⟩
  · show serialize _ = serialize _
    congr 1
    simp only [sortJson, sortJsonList, sortJsonFields]
    rw [sortFields_swap f1.name f2.name _ _ hf]
  · show ["id1", "vec1", p1.name, p2.name] ≠ ["id1", "vec1", p2.name, p1.name]
    intro hli
    simp only [List.cons.injEq, and_true, true_and] at hli
    exact hp hli.1

/-- C3, witness: instantiating `c3_determinism` at concrete field and
parameter names. -/
theorem c3_witness :
    ∃ r1 r2 : QueryResult,
      Pinecone.Render (c3Ast [(⟨"a", ""⟩, ⟨"pa"⟩), (⟨"b", ""⟩, ⟨"pb"⟩)]) = .ok r1 ∧
      Pinecone.Render (c3Ast [(⟨"b", ""⟩, ⟨"pb"⟩), (⟨"a", ""⟩, ⟨"pa"⟩)]) = .ok r2 ∧
      r1.json = r2.json ∧ r1.requiredParams ≠ r2.requiredParams :=
  c3_determinism ⟨"a", ""⟩ ⟨"b", ""⟩ ⟨"pa"⟩ ⟨"pb"⟩ (by decide) (by decide)

/-! ## Claim C4 -/

theorem maxVisitList_le_iff : ∀ (l : List FilterItem) (k : Nat),
    maxVisitList l ≤ k ↔ ∀ c ∈ l, maxVisit c ≤ k := by
  intro l k
  induction l with
  | nil => simp [maxVisitList]
  | cons c cs ih => simp [maxVisitList, Nat.max_le, ih]

mutual

theorem vfd_ok_iff : ∀ (f : FilterItem) (d : Nat),
    validateFilterDepth f d = .ok () ↔ d + maxVisit f ≤ MaxFilterDepth
  | .condition c, d => by
    simp only [validateFilterDepth, maxVisit, MaxFilterDepth]
    split <;> simp_all
  | .range r, d => by
    simp only [validateFilterDepth, maxVisit, MaxFilterDepth]
    split <;> simp_all
  | .geo g, d => by
    simp only [validateFilterDepth, maxVisit, MaxFilterDepth]
    split <;> simp_all
  | .group logic conds, d => by
    rw [validateFilterDepth.eq_def]
    dsimp only
    split
    next hgt =>
      constructor
      · intro h; exact absurd h (by simp)
      · intro h
        exfalso
        simp only [MaxFilterDepth] at h hgt
        omega
    next hle =>
      rw [vfdl_ok_iff conds (d + 1)]
      cases conds with
      | nil => simp [maxVisit, MaxFilterDepth] at hle ⊢; omega
      | cons c cs =>
        rw [show maxVisit (.group logic (c :: cs)) = 1 + maxVisitList (c :: cs) from rfl]
        constructor
        · intro h
          have hc := h c (by simp)
          have : maxVisitList (c :: cs) ≤ MaxFilterDepth - (d + 1) := by
            rw [maxVisitList_le_iff]
            intro x hx
            have := h x hx
            omega
          simp only [MaxFilterDepth] at *
          omega
        · intro h x hx
          have : maxVisit x ≤ maxVisitList (c :: cs) := by
            have := (maxVisitList_le_iff (c :: cs) (maxVisitList (c :: cs))).mp le_rfl
            exact this x hx
          omega

theorem vfdl_ok_iff : ∀ (l : List FilterItem) (d : Nat),
    validateFilterDepthList l d = .ok () ↔ ∀ c ∈ l, d + maxVisit c ≤ MaxFilterDepth
  | [], d => by simp [validateFilterDepthList]
  | c :: cs, d => by
    rw [validateFilterDepthList.eq_def]
    dsimp only
    split
    next hc =>
      rw [vfdl_ok_iff cs d]
      have := vfd_ok_iff c d
      rw [hc] at this
      simp only [true_iff] at this
      constructor
      · intro h x hx
        rcases List.mem_cons.mp hx with rfl | hx
        · simpa using this
        · exact h x hx
      · intro h x hx
        exact h x (by simp [hx])
    next e hc =>
      constructor
      · intro h; exact absurd h (by simp)
      · intro h
        have hcok : validateFilterDepth c d = .ok () := by
          rw [vfd_ok_iff c d]
          exact h c (by simp)
        rw [hcok] at hc
        exact absurd hc (by simp)

end

mutual

theorem vfd_err : ∀ (f : FilterItem) (d : Nat), d ≤ MaxFilterDepth + 1 →
    validateFilterDepth f d ≠ .ok () →
    validateFilterDepth f d = .error "filter nesting too deep: 6 > 5"
  | .condition c, d => by
    intro hd hne
    rw [validateFilterDepth.eq_def] at hne ⊢
    dsimp only at hne ⊢
    split at hne
    next hgt =>
      have : d = 6 := by simp only [MaxFilterDepth] at hgt hd; omega
      subst this
      rw [if_pos hgt]
      congr 1
    next hle => exact absurd rfl hne
  | .range r, d => by
    intro hd hne
    rw [validateFilterDepth.eq_def] at hne ⊢
    dsimp only at hne ⊢
    split at hne
    next hgt =>
      have : d = 6 := by simp only [MaxFilterDepth] at hgt hd; omega
      subst this
      rw [if_pos hgt]
      congr 1
    next hle => exact absurd rfl hne
  | .geo g, d => by
    intro hd hne
    rw [validateFilterDepth.eq_def] at hne ⊢
    dsimp only at hne ⊢
    split at hne
    next hgt =>
      have : d = 6 := by simp only [MaxFilterDepth] at hgt hd; omega
      subst this
      rw [if_pos hgt]
      congr 1
    next hle => exact absurd rfl hne
  | .group logic conds, d => by
    intro hd hne
    rw [validateFilterDepth.eq_def] at hne ⊢
    dsimp only at hne ⊢
    split at hne
    next hgt =>
      have : d = 6 := by simp only [MaxFilterDepth] at hgt hd; omega
      subst this
      rw [if_pos hgt]
      congr 1
    next hgt =>
      rw [if_neg hgt]
      have hd1 : d + 1 ≤ MaxFilterDepth + 1 := by
        simp only [MaxFilterDepth, not_lt] at hgt ⊢
        omega
      exact vfdl_err conds (d + 1) hd1 hne

theorem vfdl_err : ∀ (l : List FilterItem) (d : Nat), d ≤ MaxFilterDepth + 1 →
    validateFilterDepthList l d ≠ .ok () →
    validateFilterDepthList l d = .error "filter nesting too deep: 6 > 5"
  | [], d => by
    intro _ hne
    exact absurd rfl hne
  | c :: cs, d => by
    intro hd hne
    rw [validateFilterDepthList.eq_def] at hne ⊢
    dsimp only at hne ⊢
    by_cases hc : validateFilterDepth c d = .ok ()
    · rw [hc] at hne ⊢
      exact vfdl_err cs d hd hne
    · have := vfd_err c d hd hc
      rw [this]

end

mutual

theorem maxVisit_le_nestingDepth : ∀ f : FilterItem, maxVisit f ≤ nestingDepth f
  | .condition c => le_rfl
  | .range r => le_rfl
  | .geo g => le_rfl
  | .group logic conds => by
    cases conds with
    | nil => simp [maxVisit, nestingDepth]
    | cons c cs =>
      have := maxVisitList_le_nestingDepthList (c :: cs)
      simp only [maxVisit, nestingDepth]
      omega

theorem maxVisitList_le_nestingDepthList :
    ∀ l : List FilterItem, maxVisitList l ≤ nestingDepthList l
  | [] => le_rfl
  | c :: cs => by
    have h1 := maxVisit_le_nestingDepth c
    have h2 := maxVisitList_le_nestingDepthList cs
    simp only [maxVisitList, nestingDepthList]
    omega

end

/-- A DELETE IR with a given filter, `DeleteAll` set and no IDs. -/
def c4DeleteAst (f : FilterItem) : VectorAST :=
  { operation := OpDelete, target := ⟨"products"⟩, queryVector := none,
    queryEmbedding := none, topK := none, minScore := none, includeVectors := false,
    includeMetadata := false, filterClause := some f, metadataFields := [],
    vectors := [], updates := [], ids := [], deleteAll := true, nspace := none }

/-- Six nested FilterGroups whose innermost group has no children: spec
nesting depth 6, but no node is visited at recursion depth 6. -/
def c4Deep6 : FilterItem :=
  .group AND [.group AND [.group AND [.group AND [.group AND [.group AND []]]]]]

/-- Five nested FilterGroups around a condition leaf: nesting depth 5. -/
def c4Deep5 : FilterItem :=
  .group AND [.group AND [.group AND [.group AND [.group AND
    [.condition ⟨⟨"a", ""⟩, EQ, ⟨"p"⟩⟩]]]]]

/-- C4, counterexample: `c4Deep6` has nesting depth 6 under the claim's
own depth definition (incremented per FilterGroup nesting level), yet the
depth check accepts it, because the recursion only tests the bound at
visited nodes and the innermost group has no children to visit. -/
theorem c4_counterexample :
    nestingDepth c4Deep6 = 6 ∧ validateFilterDepth c4Deep6 0 = .ok () :=
  ⟨by decide, by rfl⟩

/-- C4 (amended): every filter tree of nesting depth at most 5 passes the
depth check; the check succeeds exactly when every node of the tree is
visited at recursion depth at most 5 (the recursion increments per
`FilterGroup` level and also counts the step into condition/range/geo
leaves, so a depth-6 tree fails precisely when its sixth nesting level has
a child); when the check fails, the error is always the depth-exceeded
message naming the depth 6 and the configured maximum 5; and the depth
check runs only for SEARCH — a DELETE IR validates successfully whatever
the depth of its filter tree. -/
theorem c4_depth_check :
    (∀ f : FilterItem, nestingDepth f ≤ MaxFilterDepth → validateFilterDepth f 0 = .ok ()) ∧
    (∀ f : FilterItem, validateFilterDepth f 0 = .ok () ↔ maxVisit f ≤ MaxFilterDepth) ∧
    (∀ f : FilterItem, validateFilterDepth f 0 ≠ .ok () →
      validateFilterDepth f 0 = .error "filter nesting too deep: 6 > 5") ∧
    (∀ f : FilterItem, Validate (c4DeleteAst f) = .ok ()) := by
  refine ⟨?_, ?_, ?_, ?_⟩
  · intro f hf
    rw [vfd_ok_iff]
    have := maxVisit_le_nestingDepth f
    omega
  · intro f
    rw [vfd_ok_iff]
    omega
  · intro f hne
    exact vfd_err f 0 (by simp [MaxFilterDepth]) hne
  · intro f
    rfl

/-- C4, witness: the depth-5 tree `c4Deep5` passes the depth check, by the
first conjunct of `c4_depth_check`. -/
theorem c4_witness : validateFilterDepth c4Deep5 0 = .ok () :=
  c4_depth_check.1 c4Deep5 (by decide)

/-! ## Claim C5 -/

/-- C5: a DELETE IR with a filter and `DeleteAll=false` always fails
validation with the requires-deleteAll error, whatever its ID list; a
DELETE IR with a non-empty ID list (within the limit) and no filter
validates without `DeleteAll`. -/
theorem c5_delete_validation :
    (∀ (ast : VectorAST) (f : FilterItem), ast.operation = OpDelete →
      ast.target.name ≠ "" → ast.filterClause = some f → ast.deleteAll = false →
      Validate ast = .error "DELETE by filter requires DeleteAll() flag for safety") ∧
    (∀ ast : VectorAST, ast.operation = OpDelete → ast.target.name ≠ "" →
      ast.filterClause = none → ast.ids.length ≠ 0 → ast.ids.length ≤ MaxIDsPerFetch →
      Validate ast = .ok ()) := by
  constructor
  · intro ast f hop htgt hf hda
    simp [Validate, hop, OpSearch, OpUpsert, OpDelete, htgt, validateDelete, hf, hda]
  · intro ast hop htgt hf hids hlimit
    simp only [Validate, hop, OpSearch, OpUpsert, OpDelete, htgt, validateDelete, hf]
    simp [hids, hf, validateDelete]
    omega

/-- A DELETE IR with a filter, two IDs and `DeleteAll=false`. -/
def c5AstFilter : VectorAST :=
  { operation := OpDelete, target := ⟨"products"⟩, queryVector := none,
    queryEmbedding := none, topK := none, minScore := none, includeVectors := false,
    includeMetadata := false,
    filterClause := some (.condition ⟨⟨"category", ""⟩, EQ, ⟨"cat"⟩⟩),
    metadataFields := [], vectors := [], updates := [],
    ids := [⟨"id1"⟩, ⟨"id2"⟩], deleteAll := false, nspace := none }

/-- A DELETE IR with two IDs and no filter. -/
def c5AstIds : VectorAST :=
  { operation := OpDelete, target := ⟨"products"⟩, queryVector := none,
    queryEmbedding := none, topK := none, minScore := none, includeVectors := false,
    includeMetadata := false, filterClause := none, metadataFields := [],
    vectors := [], updates := [],
    ids := [⟨"id1"⟩, ⟨"id2"⟩], deleteAll := false, nspace := none }

/-- C5, witness: instantiating `c5_delete_validation` on concrete DELETE
IRs — one with a filter, two IDs and `DeleteAll=false`, one with two IDs
and no filter. -/
theorem c5_witness :
    Validate c5AstFilter = .error "DELETE by filter requires DeleteAll() flag for safety" ∧
    Validate c5AstIds = .ok () :=
  ⟨c5_delete_validation.1 c5AstFilter _ rfl (by decide) rfl rfl,
   c5_delete_validation.2 c5AstIds rfl (by decide) rfl (by decide) (by decide)⟩

/-! ## Claim C6 -/

/-- C6: a failed validation short-circuits every renderer: each Render
returns the validation error wrapped as `invalid AST: ...` and no
`QueryResult`. -/
theorem c6_validation_short_circuit :
    ∀ (ast : VectorAST) (e : String), Validate ast = .error e →
      Pinecone.Render ast = .error ("invalid AST: " ++ e) ∧
      (∀ r : Qdrant.Renderer, Qdrant.Render r ast = .error ("invalid AST: " ++ e)) ∧
      Weaviate.Render ast = .error ("invalid AST: " ++ e) ∧
      (∀ r : Milvus.Renderer, Milvus.Render r ast = .error ("invalid AST: " ++ e)) := by
  intro ast e h
  refine ⟨?_, fun r => ?_, ?_, fun r => ?_⟩ <;>
    simp [Pinecone.Render, Qdrant.Render, Weaviate.Render, Milvus.Render, h]

/-- An IR with an empty target collection name: validation fails. -/
def c6Ast : VectorAST :=
  { operation := OpSearch, target := ⟨""⟩, queryVector := none,
    queryEmbedding := none, topK := none, minScore := none, includeVectors := false,
    includeMetadata := false, filterClause := none, metadataFields := [],
    vectors := [], updates := [], ids := [], deleteAll := false, nspace := none }

/-- C6, witness: the empty-target IR makes every renderer fail with the
propagated validation error. -/
theorem c6_witness :
    Pinecone.Render c6Ast = .error "invalid AST: target collection is required" ∧
    Qdrant.Render Qdrant.new c6Ast = .error "invalid AST: target collection is required" ∧
    Weaviate.Render c6Ast = .error "invalid AST: target collection is required" ∧
    Milvus.Render Milvus.new c6Ast = .error "invalid AST: target collection is required" := by
  have h := c6_validation_short_circuit c6Ast "target collection is required" (by rfl)
  exact ⟨h.1, h.2.1 Qdrant.new, h.2.2.1, h.2.2.2 Milvus.new⟩

/-! ## Claim C7 -/

/-- C7: a `FilterOperator` outside a dialect's mapping table falls back to
the dialect's default equality token — `$eq` for Pinecone, `==` for
Milvus, `Equal` for Weaviate — and condition rendering never errors. -/
theorem c7_operator_fallback :
    (∀ op : FilterOperator,
      op ∉ ([EQ, NE, GT, GE, LT, LE, IN, NotIn] : List FilterOperator) →
      Pinecone.mapOperator op = "$eq") ∧
    (∀ op : FilterOperator,
      op ∉ ([EQ, NE, GT, GE, LT, LE, IN, NotIn, ContainsOp] : List FilterOperator) →
      Milvus.mapOperator op = "==") ∧
    (∀ op : FilterOperator,
      op ∉ ([EQ, NE, GT, GE, LT, LE, ContainsOp, ExistsOp] : List FilterOperator) →
      Weaviate.mapOperator op = "Equal") ∧
    (∀ (c : FilterCondition) (ps : List String),
      Pinecone.renderFilter (.condition c) ps =
        .ok (.obj [(c.field.name,
            .obj [(Pinecone.mapOperator c.operator, .str (":" ++ c.value.name))])],
          ps ++ [c.value.name]) ∧
      Milvus.renderFilter (.condition c) ps =
        .ok (c.field.name ++ " " ++ Milvus.mapOperator c.operator ++ " :" ++ c.value.name,
          ps ++ [c.value.name]) ∧
      Weaviate.renderFilter (.condition c) ps =
        .ok (.obj [("path", .arr [.str c.field.name]),
                   ("operator", .str (Weaviate.mapOperator c.operator)),
                   ("valueString", .str (":" ++ c.value.name))],
          ps ++ [c.value.name])) := by
  refine ⟨?_, ?_, ?_, ?_⟩
  · intro op h
    simp only [List.mem_cons, List.not_mem_nil, or_false, not_or] at h
    obtain ⟨h1, h2, h3, h4, h5, h6, h7, h8⟩ := h
    simp [Pinecone.mapOperator, h1, h2, h3, h4, h5, h6, h7, h8]
  · intro op h
    simp only [List.mem_cons, List.not_mem_nil, or_false, not_or] at h
    obtain ⟨h1, h2, h3, h4, h5, h6, h7, h8, h9⟩ := h
    simp [Milvus.mapOperator, h1, h2, h3, h4, h5, h6, h7, h8, h9]
  · intro op h
    simp only [List.mem_cons, List.not_mem_nil, or_false, not_or] at h
    obtain ⟨h1, h2, h3, h4, h5, h6, h7, h8⟩ := h
    simp [Weaviate.mapOperator, h1, h2, h3, h4, h5, h6, h7, h8]
  · intro c ps
    refine ⟨rfl, rfl, rfl⟩

/-- C7, witness: the MATCHES operator is outside all three mapping tables
and falls back to each dialect's default token. -/
theorem c7_witness :
    Pinecone.mapOperator MatchesOp = "$eq" ∧
    Milvus.mapOperator MatchesOp = "==" ∧
    Weaviate.mapOperator MatchesOp = "Equal" :=
  ⟨c7_operator_fallback.1 MatchesOp (by decide),
   c7_operator_fallback.2.1 MatchesOp (by decide),
   c7_operator_fallback.2.2.1 MatchesOp (by decide)⟩

/-! ## Claim C9 -/

/-- C9: a condition built by the `Exists` or `NotExists` constructor
carries the zero `Param` (empty name); every renderer appends that empty
name to the parameter accumulator and writes the bare placeholder token
`:` into the document, for both the EXISTS and the NOT_EXISTS operator. -/
theorem c9_exists_empty_param :
    ∀ (field : MetadataField) (ps : List String),
      (Expr.existsCond field).value.name = "" ∧
      (Expr.notExistsCond field).value.name = "" ∧
      Pinecone.renderFilter (.condition (Expr.existsCond field)) ps =
        .ok (.obj [(field.name, .obj [("$eq", .str ":")])], ps ++ [""]) ∧
      Pinecone.renderFilter (.condition (Expr.notExistsCond field)) ps =
        .ok (.obj [(field.name, .obj [("$eq", .str ":")])], ps ++ [""]) ∧
      Qdrant.renderFilter (.condition (Expr.existsCond field)) ps =
        .ok (.obj [(Qdrant.condMust,
            .arr [.obj [("key", .str field.name),
                        ("match", .obj [("value", .str ":")])]])], ps ++ [""]) ∧
      Qdrant.renderFilter (.condition (Expr.notExistsCond field)) ps =
        .ok (.obj [(Qdrant.condMust,
            .arr [.obj [("key", .str field.name),
                        ("match", .obj [("value", .str ":")])]])], ps ++ [""]) ∧
      Weaviate.renderFilter (.condition (Expr.existsCond field)) ps =
        .ok (.obj [("path", .arr [.str field.name]),
                   ("operator", .str "IsNull"),
                   ("valueString", .str ":")], ps ++ [""]) ∧
      Weaviate.renderFilter (.condition (Expr.notExistsCond field)) ps =
        .ok (.obj [("path", .arr [.str field.name]),
                   ("operator", .str "Equal"),
                   ("valueString", .str ":")], ps ++ [""]) ∧
      Milvus.renderFilter (.condition (Expr.existsCond field)) ps =
        .ok (field.name ++ " == :", ps ++ [""]) ∧
      Milvus.renderFilter (.condition (Expr.notExistsCond field)) ps =
        .ok (field.name ++ " == :", ps ++ [""]) := by
  intro field ps
  refine ⟨rfl, rfl, ?_, ?_, ?_, ?_, ?_, ?_, ?_, ?_⟩
  · simp [Pinecone.renderFilter, Expr.existsCond, Pinecone.mapOperator,
      EQ, NE, GT, GE, LT, LE, IN, NotIn, ExistsOp]
  · simp [Pinecone.renderFilter, Expr.notExistsCond, Pinecone.mapOperator,
      EQ, NE, GT, GE, LT, LE, IN, NotIn, NotExistsOp]
  · simp [Qdrant.renderFilter, Expr.existsCond, Qdrant.mapConditionType, NE, ExistsOp]
  · simp [Qdrant.renderFilter, Expr.notExistsCond, Qdrant.mapConditionType, NE, NotExistsOp]
  · simp [Weaviate.renderFilter, Expr.existsCond, Weaviate.mapOperator,
      EQ, NE, GT, GE, LT, LE, ContainsOp, ExistsOp]
  · simp [Weaviate.renderFilter, Expr.notExistsCond, Weaviate.mapOperator,
      EQ, NE, GT, GE, LT, LE, ContainsOp, ExistsOp, NotExistsOp]
  · simp only [Milvus.renderFilter, Expr.existsCond, Milvus.mapOperator,
      EQ, NE, GT, GE, LT, LE, IN, NotIn, ContainsOp, ExistsOp, Except.ok.injEq,
      Prod.mk.injEq, String.reduceEq, reduceIte, ite_false, and_true]
    rw [String.append_assoc, String.append_assoc, String.append_assoc]
    congr 1
  · simp only [Milvus.renderFilter, Expr.notExistsCond, Milvus.mapOperator,
      EQ, NE, GT, GE, LT, LE, IN, NotIn, ContainsOp, NotExistsOp, Except.ok.injEq,
      Prod.mk.injEq, String.reduceEq, reduceIte, ite_false, and_true]
    rw [String.append_assoc, String.append_assoc, String.append_assoc]
    congr 1

/-! ## Claim C10 -/

/-- C10: rendering a valid DELETE IR with a filter, `DeleteAll=true` and
no IDs on Pinecone produces the rendered filter together with the key
`deleteAll` bound to the JSON constant `false`, although the IR's flag is
`true`. -/
theorem c10_deleteAll_false :
    ∀ (ast : VectorAST) (f : FilterItem) (doc : JValue) (ps2 : List String),
      ast.operation = OpDelete → ast.target.name ≠ "" → ast.ids = [] →
      ast.filterClause = some f → ast.deleteAll = true → ast.nspace = none →
      Pinecone.renderFilter f [] = .ok (doc, ps2) →
      Pinecone.Render ast =
        .ok ⟨serialize (.obj [("deleteAll", .bool false), ("filter", sortJson doc)]), ps2⟩ := by
  intro ast f doc ps2 hop htgt hids hf hda hns hrf
  have hval : Validate ast = .ok () := by
    simp [Validate, hop, htgt, validateDelete, hids, hf, hda, OpSearch, OpUpsert,
      OpDelete, MaxIDsPerFetch]
  simp only [Pinecone.Render, hval, hop, OpSearch, OpUpsert, OpDelete, reduceIte]
  simp only [Pinecone.renderDelete, hids, hf, hda, List.length_nil, gt_iff_lt,
    lt_self_iff_false, if_false, if_true, hrf, reduceIte]
  simp only [Pinecone.emitTail, hns, toResult, jsonMarshal, Except.ok.injEq,
    QueryResult.mk.injEq]
  have hmap : mapInsert (mapInsert [] "filter" doc) "deleteAll" (.bool false) =
      [("filter", doc), ("deleteAll", .bool false)] := by
    simp [mapInsert]
  have hsort : sortJson (.obj [("filter", doc), ("deleteAll", .bool false)]) =
      .obj [("deleteAll", .bool false), ("filter", sortJson doc)] := by
    have hle : strLe "filter" "deleteAll" = false := by decide
    simp [sortJson, sortJsonFields, sortFields, insertSorted, hle]
  rw [hmap, hsort]
  exact rfl

/-- The DELETE-by-filter IR from the repository's own Pinecone test. -/
def c10Ast : VectorAST :=
  { operation := OpDelete, target := ⟨"products"⟩, queryVector := none,
    queryEmbedding := none, topK := none, minScore := none, includeVectors := false,
    includeMetadata := false,
    filterClause := some (.condition ⟨⟨"category", ""⟩, EQ, ⟨"cat"⟩⟩),
    metadataFields := [], vectors := [], updates := [], ids := [],
    deleteAll := true, nspace := none }

/-- C10, witness: on the repository's own test input the rendered document
is exactly the one the Go test expects, with `deleteAll` bound to `false`. -/
theorem c10_witness :
    Pinecone.Render c10Ast =
      .ok ⟨serialize (.obj [("deleteAll", .bool false),
             ("filter", sortJson (.obj [("category", .obj [("$eq", .str ":cat")])]))]),
           ["cat"]⟩ :=
  c10_deleteAll_false c10Ast _ _ _ rfl (by decide) rfl rfl rfl rfl (by rfl)

end Vectql
